import Mathlib

/-!
Verification of the rustic compiler (a source-to-source compiler from the
"rustic" language to Rust) against its design specification.

The development shallowly embeds the code of `src/main.rs`,
`src/compiler/mod.rs`, `src/compiler/lexer.rs` and `src/compiler/ast.rs`.
Parts of the repository that are referenced but whose files are not present
(`src/compiler/parser.rs`, `src/compiler/semantic.rs`, `src/compiler/codegen.rs`,
`src/diagnostics.rs`, `src/utils.rs`, and a few private helper methods of
`Lexer`) are modelled from the specification; each such definition carries a
doc comment starting with "Modelled from the spec".

Conventions of the embedding:
  - Rust `Vec<T>` is `List T`; `Box<T>` (owned child) is a plain field.
  - `HashMap<String, Expression>` is an association list whose list order
    stands for the map's (unspecified) iteration order; `HashMap::get` is
    first-match association-list lookup.
  - `Result<T>` (with the diagnostics `Error` enum) is `Except CompileError T`.
  - Machine integers (`i64`) are `Int`; no claim exercises overflow.
    `f64` is carried opaquely as its bit pattern (no claim computes with it).
  - The lexer's cursor (`input`/`position`) is the list of remaining
    characters; `line`/`column` are threaded explicitly.
-/

namespace Rustic

/-- Modelled from the spec: the source span of `src/diagnostics.rs` (file
identity, start/end line and column), attached to tokens and AST nodes. -/
structure Span where
  file : String
  start_line : Nat
  start_column : Nat
  end_line : Nat
  end_column : Nat
deriving DecidableEq, Repr

/-- Modelled from the spec: the error enum of `src/diagnostics.rs`. The
variants `lexError`, `ioError` and `compilationError` appear in the sources
under `src/`; `parseError` and `semanticError` follow the spec's error
taxonomy (lex, parse, semantic, I/O, build). -/
inductive CompileError where
  | lexError (msg : String)
  | parseError (msg : String)
  | semanticError (msg : String)
  | ioError (msg : String)
  | compilationError (msg : String)
deriving DecidableEq, Repr

/-- `TokenType` of `src/compiler/lexer.rs` lines 4-28. Keyword variants carry
a `Kw` suffix where the Rust name is a Lean keyword (`Let`, `If`, ...);
`f64` of the `Float` variant is carried as its bit pattern. -/
inductive TokenType where
  | integer (value : Int)
  | float (bits : Nat)
  | string (value : String)
  | boolean (value : Bool)
  | identifier (name : String)
  | letKw | varKw | fnKw | ifKw | elseKw | forKw | inKw | tryKw | catchKw | returnKw
  | importKw | structKw | throwKw
  | intType | floatType | strType | boolType | listType | voidType
  | plus | minus | star | slash | percent
  | equal | notEqual | less | lessEqual | greater | greaterEqual
  | and | or | not
  | assign
  | leftParen | rightParen
  | leftBrace | rightBrace
  | leftBracket | rightBracket
  | comma | dot | colon | semicolon | arrow
  | newline | eof
deriving Repr

/-- Injective packing of a token type into a tuple with decidable equality;
used to furnish `DecidableEq TokenType` without the quadratic double match
the default derivation would produce. -/
def TokenType.encode : TokenType → Nat × Int × String × Bool
  | .integer v => (0, v, "", false)
  | .float b => (1, (b : Int), "", false)
  | .string s => (2, 0, s, false)
  | .boolean b => (3, 0, "", b)
  | .identifier s => (4, 0, s, false)
  | .letKw => (5, 0, "", false)
  | .varKw => (6, 0, "", false)
  | .fnKw => (7, 0, "", false)
  | .ifKw => (8, 0, "", false)
  | .elseKw => (9, 0, "", false)
  | .forKw => (10, 0, "", false)
  | .inKw => (11, 0, "", false)
  | .tryKw => (12, 0, "", false)
  | .catchKw => (13, 0, "", false)
  | .returnKw => (14, 0, "", false)
  | .importKw => (15, 0, "", false)
  | .structKw => (16, 0, "", false)
  | .throwKw => (17, 0, "", false)
  | .intType => (18, 0, "", false)
  | .floatType => (19, 0, "", false)
  | .strType => (20, 0, "", false)
  | .boolType => (21, 0, "", false)
  | .listType => (22, 0, "", false)
  | .voidType => (23, 0, "", false)
  | .plus => (24, 0, "", false)
  | .minus => (25, 0, "", false)
  | .star => (26, 0, "", false)
  | .slash => (27, 0, "", false)
  | .percent => (28, 0, "", false)
  | .equal => (29, 0, "", false)
  | .notEqual => (30, 0, "", false)
  | .less => (31, 0, "", false)
  | .lessEqual => (32, 0, "", false)
  | .greater => (33, 0, "", false)
  | .greaterEqual => (34, 0, "", false)
  | .and => (35, 0, "", false)
  | .or => (36, 0, "", false)
  | .not => (37, 0, "", false)
  | .assign => (38, 0, "", false)
  | .leftParen => (39, 0, "", false)
  | .rightParen => (40, 0, "", false)
  | .leftBrace => (41, 0, "", false)
  | .rightBrace => (42, 0, "", false)
  | .leftBracket => (43, 0, "", false)
  | .rightBracket => (44, 0, "", false)
  | .comma => (45, 0, "", false)
  | .dot => (46, 0, "", false)
  | .colon => (47, 0, "", false)
  | .semicolon => (48, 0, "", false)
  | .arrow => (49, 0, "", false)
  | .newline => (50, 0, "", false)
  | .eof => (51, 0, "", false)

/-- Left inverse of `TokenType.encode`. -/
def TokenType.decode : Nat × Int × String × Bool → TokenType := fun p =>
  match p.1 with
  | 0 => .integer p.2.1
  | 1 => .float p.2.1.toNat
  | 2 => .string p.2.2.1
  | 3 => .boolean p.2.2.2
  | 4 => .identifier p.2.2.1
  | 5 => .letKw
  | 6 => .varKw
  | 7 => .fnKw
  | 8 => .ifKw
  | 9 => .elseKw
  | 10 => .forKw
  | 11 => .inKw
  | 12 => .tryKw
  | 13 => .catchKw
  | 14 => .returnKw
  | 15 => .importKw
  | 16 => .structKw
  | 17 => .throwKw
  | 18 => .intType
  | 19 => .floatType
  | 20 => .strType
  | 21 => .boolType
  | 22 => .listType
  | 23 => .voidType
  | 24 => .plus
  | 25 => .minus
  | 26 => .star
  | 27 => .slash
  | 28 => .percent
  | 29 => .equal
  | 30 => .notEqual
  | 31 => .less
  | 32 => .lessEqual
  | 33 => .greater
  | 34 => .greaterEqual
  | 35 => .and
  | 36 => .or
  | 37 => .not
  | 38 => .assign
  | 39 => .leftParen
  | 40 => .rightParen
  | 41 => .leftBrace
  | 42 => .rightBrace
  | 43 => .leftBracket
  | 44 => .rightBracket
  | 45 => .comma
  | 46 => .dot
  | 47 => .colon
  | 48 => .semicolon
  | 49 => .arrow
  | 50 => .newline
  | _ => .eof

theorem TokenType.decode_encode (t : TokenType) : TokenType.decode (TokenType.encode t) = t := by
  cases t <;> rfl

instance : DecidableEq TokenType := fun a b =>
  decidable_of_iff (TokenType.encode a = TokenType.encode b)
    ⟨fun h => by rw [← TokenType.decode_encode a, h, TokenType.decode_encode],
     fun h => by rw [h]⟩

/-- `Token` of `src/compiler/lexer.rs` lines 30-34. -/
structure Token where
  token_type : TokenType
  span : Span
deriving DecidableEq, Repr

/-- Decimal value of a digit run (used by the modelled `scan_number`). -/
def digitsToNat (cs : List Char) : Nat :=
  cs.foldl (fun a c => a * 10 + (c.toNat - 48)) 0

/-- Modelled from the spec: the numeric value of an integer literal
(`scan_number` is absent from `src/compiler/lexer.rs`); `i64` overflow is out
of the modelled scope (no claim exercises it). -/
def digitsToInt (cs : List Char) : Int :=
  (digitsToNat cs : Int)

/-- Modelled from the spec: an `f64` carried as a bit pattern. No claim
computes with float values. -/
structure F64 where
  bits : Nat
deriving DecidableEq, Repr

/-- Modelled from the spec: the text-to-`f64` conversion of the absent
`scan_number`, abstracted to an injective packing of the literal's integer
and fraction digit runs (the exact IEEE-754 value matters to no claim). -/
def F64.ofDigits (ip fp : List Char) : F64 :=
  ⟨Nat.pair (digitsToNat ip) (Nat.pair (digitsToNat fp) fp.length)⟩

/-- Modelled from the spec: `skip_whitespace`, absent from
`src/compiler/lexer.rs`. It skips blanks, tabs and carriage returns but not
newlines: `TokenType::Newline` exists and `scan_token` has an explicit
newline arm (lexer.rs lines 112-116), so newlines must reach `scan_token`.
Returns the remaining input and the updated column. -/
def skipWhitespace : List Char → Nat → List Char × Nat
  | [], col => ([], col)
  | c :: rest, col =>
    if c = ' ' || c = '\t' || c = '\r' then skipWhitespace rest (col + 1)
    else (c :: rest, col)

/-- The line-comment loop of `scan_token` (lexer.rs lines 126-130): advance
while the next character is not a newline, then the tail call `self.scan_token()`
is unfolded for the only two shapes its input can have (a leading newline, or
end of input; at end of input the modelled safe `advance` yields the NUL
sentinel, which falls to the unexpected-character arm). -/
def skipComment : List Char → Nat → Nat → Except CompileError (TokenType × List Char × Nat × Nat)
  | [], _line, _col => .error (.lexError ("Unexpected character: " ++ String.singleton '\x00'))
  | c :: rest, line, col =>
    if c = '\n' then .ok (.newline, rest, line + 1, 1)
    else skipComment rest line (col + 1)

/-- `scan_string` of `src/compiler/lexer.rs` lines 184-216, on the input after
the opening quote. `value` is the accumulated translated contents. The column
bookkeeping mirrors the source: an embedded newline sets line+1 and column 1,
then the `advance` that consumes it adds one more column. The helper `advance`
(absent from the source) is modelled safely: at end of input it yields the NUL
sentinel, so a trailing lone backslash reports an invalid escape of NUL. -/
def scanString : List Char → Nat → Nat → String → Except CompileError (String × List Char × Nat × Nat)
  | [], _line, _col, _value => .error (.lexError "Unterminated string")
  | '"' :: rest, line, col, value => .ok (value, rest, line, col + 1)
  | '\\' :: rest, line, col, value =>
    match rest with
    | [] => .error (.lexError ("Invalid escape sequence: \\" ++ String.singleton '\x00'))
    | e :: rest2 =>
      if e = 'n' then scanString rest2 line (col + 2) (value.push '\n')
      else if e = 't' then scanString rest2 line (col + 2) (value.push '\t')
      else if e = 'r' then scanString rest2 line (col + 2) (value.push '\r')
      else if e = '\\' then scanString rest2 line (col + 2) (value.push '\\')
      else if e = '"' then scanString rest2 line (col + 2) (value.push '"')
      else .error (.lexError ("Invalid escape sequence: \\" ++ String.singleton e))
  | c :: rest, line, col, value =>
    if c = '\n' then scanString rest (line + 1) 2 (value.push c)
    else scanString rest line (col + 1) (value.push c)

/-- Modelled from the spec: `scan_number`, absent from
`src/compiler/lexer.rs`. A run of digits; a decimal point followed by a digit
forms a float literal, otherwise an integer literal. `c` is the already
consumed first digit. -/
def scanNumber (c : Char) (cs : List Char) (line col : Nat) : TokenType × List Char × Nat × Nat :=
  let ds := cs.takeWhile Char.isDigit
  let rest := cs.dropWhile Char.isDigit
  let col := col + ds.length
  match rest with
  | '.' :: d :: rest2 =>
    if d.isDigit then
      let fs := (d :: rest2).takeWhile Char.isDigit
      let rest3 := (d :: rest2).dropWhile Char.isDigit
      ((.float (F64.ofDigits (c :: ds) fs).bits), rest3, line, col + 1 + fs.length)
    else ((.integer (digitsToInt (c :: ds))), rest, line, col)
  | _ => ((.integer (digitsToInt (c :: ds))), rest, line, col)

/-- Modelled from the spec: the keyword table of the absent
`scan_identifier`. The keyword list is the spec's (`let`, `var`, `fn`, `if`,
`else`, `for`, `in`, `try`, `catch`, `return`, `import`, `struct`, the
`throw` reserved word of `TokenType::Throw`, the primitive type keywords) and
the boolean literals of `TokenType::Boolean`. -/
def keywordTable : List (String × TokenType) :=
  [("let", .letKw), ("var", .varKw), ("fn", .fnKw), ("if", .ifKw), ("else", .elseKw),
   ("for", .forKw), ("in", .inKw), ("try", .tryKw), ("catch", .catchKw),
   ("return", .returnKw), ("import", .importKw), ("struct", .structKw),
   ("throw", .throwKw), ("int", .intType), ("float", .floatType), ("str", .strType),
   ("bool", .boolType), ("list", .listType), ("void", .voidType),
   ("true", .boolean true), ("false", .boolean false)]

/-- Classification of a scanned word against the keyword table; non-keywords
become identifier tokens. -/
def keywordOrIdentifier (s : String) : TokenType :=
  match keywordTable.find? (fun p => p.1 = s) with
  | some p => p.2
  | none => .identifier s

/-- Modelled from the spec: `scan_identifier`, absent from
`src/compiler/lexer.rs`. A leading alphabetic or underscore (already consumed
as `c`) followed by alphanumerics and underscores, classified against the
keyword table. -/
def scanIdentifier (c : Char) (cs : List Char) (line col : Nat) : TokenType × List Char × Nat × Nat :=
  let tl := cs.takeWhile (fun ch => ch.isAlphanum || ch = '_')
  let rest := cs.dropWhile (fun ch => ch.isAlphanum || ch = '_')
  ((keywordOrIdentifier (String.mk (c :: tl))), rest, line, col + tl.length)

/-- `scan_token` of `src/compiler/lexer.rs` lines 96-182. The first `advance`
is the head pattern (on empty input the modelled safe `advance` yields the NUL
sentinel, which no arm matches, so the unexpected-character error reports it).
Source line 111 contains the arm `'(' => Ok(TokenType::Percent)`: its pattern
duplicates line 100's `'('` arm, so under Rust's first-match semantics it is
unreachable and is not written here (Lean rejects a redundant alternative);
in particular no arm produces `TokenType::Percent`. -/
def scanToken : List Char → Nat → Nat → Except CompileError (TokenType × List Char × Nat × Nat)
  | [], _line, _col => .error (.lexError ("Unexpected character: " ++ String.singleton '\x00'))
  | c :: rest, line, col =>
    let col := col + 1
    match c with
    | '(' => .ok (.leftParen, rest, line, col)
    | ')' => .ok (.rightParen, rest, line, col)
    | '{' => .ok (.leftBrace, rest, line, col)
    | '}' => .ok (.rightBrace, rest, line, col)
    | '[' => .ok (.leftBracket, rest, line, col)
    | ']' => .ok (.rightBracket, rest, line, col)
    | ',' => .ok (.comma, rest, line, col)
    | '.' => .ok (.dot, rest, line, col)
    | ':' => .ok (.colon, rest, line, col)
    | ';' => .ok (.semicolon, rest, line, col)
    | '+' => .ok (.plus, rest, line, col)
    | '\n' => .ok (.newline, rest, line + 1, 1)
    | '-' =>
      match rest with
      | '>' :: r => .ok (.arrow, r, line, col + 1)
      | _ => .ok (.minus, rest, line, col)
    | '*' => .ok (.star, rest, line, col)
    | '/' =>
      match rest with
      | '/' :: r => skipComment r line (col + 1)
      | _ => .ok (.slash, rest, line, col)
    | '=' =>
      match rest with
      | '=' :: r => .ok (.equal, r, line, col + 1)
      | _ => .ok (.assign, rest, line, col)
    | '!' =>
      match rest with
      | '=' :: r => .ok (.notEqual, r, line, col + 1)
      | _ => .ok (.not, rest, line, col)
    | '<' =>
      match rest with
      | '=' :: r => .ok (.lessEqual, r, line, col + 1)
      | _ => .ok (.less, rest, line, col)
    | '>' =>
      match rest with
      | '=' :: r => .ok (.greaterEqual, r, line, col + 1)
      | _ => .ok (.greater, rest, line, col)
    | '&' =>
      match rest with
      | '&' :: r => .ok (.and, r, line, col + 1)
      | _ => .error (.lexError "Unexpected character: &")
    | '|' =>
      match rest with
      | '|' :: r => .ok (.or, r, line, col + 1)
      | _ => .error (.lexError "Unexpected character: |")
    | '"' =>
      match scanString rest line col "" with
      | .error e => .error e
      | .ok (s, cs', line', col') => .ok (.string s, cs', line', col')
    | _ =>
      if c.isDigit then .ok (scanNumber c rest line col)
      else if c.isAlpha || c = '_' then .ok (scanIdentifier c rest line col)
      else .error (.lexError ("Unexpected character: " ++ String.singleton c))

/-- The `Eof` token pushed at the end of `tokenize` (lexer.rs lines 82-91). -/
def eofToken (file : String) (line col : Nat) : Token :=
  { token_type := .eof
    span := { file := file, start_line := line, start_column := col
              end_line := line, end_column := col } }

/-- The loop of `tokenize` (lexer.rs lines 55-94): skip whitespace, break at
end of input, scan one token, attach its span, repeat; then push `Eof`. The
`fuel` argument makes the recursion structural; `tokenize` supplies one unit
per input character plus one, which is proven sufficient
(`tokenizeLoop_no_fuel_error`), so the fuel branch is unreachable. -/
def tokenizeLoop (file : String) : Nat → List Char → Nat → Nat → List Token →
    Except CompileError (List Token)
  | 0, _, _, _, _ => .error (.ioError "unreachable: lexer fuel exhausted")
  | _fuel + 1, [], line, col, acc => .ok (acc ++ [eofToken file line col])
  | fuel + 1, c :: cs, line, col, acc =>
    match skipWhitespace (c :: cs) col with
    | (cs', col') =>
      match cs' with
      | [] => .ok (acc ++ [eofToken file line col'])
      | _ :: _ =>
        match scanToken cs' line col' with
        | .error e => .error e
        | .ok (tt, cs'', line'', col'') =>
          tokenizeLoop file fuel cs'' line'' col''
            (acc ++ [{ token_type := tt
                       span := { file := file, start_line := line, start_column := col'
                                 end_line := line'', end_column := col'' } }])

/-- `tokenize` of `src/compiler/lexer.rs` lines 55-94, starting at line 1,
column 1 (`Lexer::new`, lines 45-53). -/
def tokenize (source : String) (file : String) : Except CompileError (List Token) :=
  tokenizeLoop file (source.toList.length + 1) source.toList 1 1 []

example : tokenize "" "f" =
    .ok [⟨.eof, ⟨"f", 1, 1, 1, 1⟩⟩] := rfl

example : tokenize "1 % 2" "f" = .error (.lexError "Unexpected character: %") := rfl

example : tokenize "\"abc" "f" = .error (.lexError "Unterminated string") := rfl

example : tokenize "\"a\\z\"" "f" =
    .error (.lexError "Invalid escape sequence: \\z") := rfl

/-- `Type` of `src/compiler/ast.rs` lines 72-81 (`Type` is reserved in Lean,
hence `Ty`). -/
inductive Ty where
  | int
  | float
  | str
  | bool
  | list (elem : Ty)
  | struct (name : String)
  | void
deriving DecidableEq, Repr

/-- `Literal` of `src/compiler/ast.rs` lines 156-162; `f64` carried as its
bit pattern (`F64`). -/
inductive Literal where
  | integer (value : Int)
  | float (value : F64)
  | string (value : String)
  | boolean (value : Bool)
deriving DecidableEq, Repr

/-- `Identifier` of `src/compiler/ast.rs` lines 164-168. -/
structure Identifier where
  name : String
  span : Span
deriving DecidableEq, Repr

/-- `BinaryOperator` of `src/compiler/ast.rs` lines 178-183. -/
inductive BinaryOperator where
  | add | sub | mul | div | mod
  | eq | ne | lt | le | gt | ge
  | and | or
deriving DecidableEq, Repr

/-- `UnaryOperator` of `src/compiler/ast.rs` lines 192-195. -/
inductive UnaryOperator where
  | neg | not
deriving DecidableEq, Repr

mutual

/-- `Expression` of `src/compiler/ast.rs` lines 144-154. -/
inductive Expression where
  | literal (value : Literal)
  | identifier (value : Identifier)
  | binary (value : BinaryOp)
  | unary (value : UnaryOp)
  | call (value : FunctionCall)
  | memberAccess (value : MemberAccess)
  | list (value : ListLiteral)
  | structInit (value : StructInitializer)

/-- `BinaryOp` of `src/compiler/ast.rs` lines 170-176 (`Box<Expression>` is
direct ownership). Written as a one-constructor inductive: Lean does not
allow `structure` inside a mutual block. -/
inductive BinaryOp where
  | mk (left : Expression) (operator : BinaryOperator) (right : Expression) (span : Span)

/-- `UnaryOp` of `src/compiler/ast.rs` lines 185-190. -/
inductive UnaryOp where
  | mk (operator : UnaryOperator) (operand : Expression) (span : Span)

/-- `FunctionCall` of `src/compiler/ast.rs` lines 197-202. -/
inductive FunctionCall where
  | mk (function : Expression) (arguments : List Expression) (span : Span)

/-- `MemberAccess` of `src/compiler/ast.rs` lines 204-209. -/
inductive MemberAccess where
  | mk (object : Expression) (member : String) (span : Span)

/-- `ListLiteral` of `src/compiler/ast.rs` lines 211-215. -/
inductive ListLiteral where
  | mk (elements : List Expression) (span : Span)

/-- `StructInitializer` of `src/compiler/ast.rs` lines 217-222. The
`HashMap<String, Expression>` field map is an association list; its list
order stands for the map's unspecified iteration order and carries no
meaning (`lookupField` is the map's `get`). -/
inductive StructInitializer where
  | mk (struct_name : String) (fields : List (String × Expression)) (span : Span)

end

/-- Field projection of the one-constructor `StructInitializer`. -/
def StructInitializer.struct_name : StructInitializer → String
  | .mk n _ _ => n

/-- Field projection of the one-constructor `StructInitializer`. -/
def StructInitializer.fields : StructInitializer → List (String × Expression)
  | .mk _ f _ => f

/-- Field projection of the one-constructor `StructInitializer`. -/
def StructInitializer.span : StructInitializer → Span
  | .mk _ _ s => s

/-- `HashMap::get` on the association-list model of the struct-initializer
field map: the value at the first matching key. -/
def lookupField : List (String × Expression) → String → Option Expression
  | [], _ => none
  | (k', v) :: rest, k => if k' = k then some v else lookupField rest k

/-- `Field` of `src/compiler/ast.rs` lines 40-45. -/
structure Field where
  name : String
  field_type : Ty
  span : Span
deriving DecidableEq, Repr

/-- `Struct` of `src/compiler/ast.rs` lines 33-38. -/
structure Struct where
  name : String
  fields : List Field
  span : Span
deriving DecidableEq, Repr

/-- `Parameter` of `src/compiler/ast.rs` lines 47-53. -/
structure Parameter where
  name : String
  param_type : Ty
  default_value : Option Expression
  span : Span

/-- `Variable` of `src/compiler/ast.rs` lines 55-62. -/
structure Variable where
  name : String
  var_type : Ty
  initializer : Expression
  mutable : Bool
  span : Span

/-- `Constant` of `src/compiler/ast.rs` lines 64-70. -/
structure Constant where
  name : String
  const_type : Ty
  value : Expression
  span : Span

mutual

/-- `Statement` of `src/compiler/ast.rs` lines 89-98. The `Variable` and
`If` variants are `varDecl` and `ifStmt` here (`variable` and `if` are
Lean keywords); `Return` is `ret`. -/
inductive Statement where
  | expression (value : Expression)
  | varDecl (value : Variable)
  | assignment (value : Assignment)
  | ifStmt (value : IfStatement)
  | forLoop (value : ForLoop)
  | tryStmt (value : TryStatement)
  | ret (value : ReturnStatement)

/-- `Assignment` of `src/compiler/ast.rs` lines 100-105. -/
inductive Assignment where
  | mk (target : Expression) (value : Expression) (span : Span)

/-- `IfStatement` of `src/compiler/ast.rs` lines 107-114. -/
inductive IfStatement where
  | mk (condition : Expression) (then_block : Block) (else_ifs : List (Expression × Block))
       (else_block : Option Block) (span : Span)

/-- `ForLoop` of `src/compiler/ast.rs` lines 116-122. -/
inductive ForLoop where
  | mk (variab : String) (iterable : Expression) (body : Block) (span : Span)

/-- `TryStatement` of `src/compiler/ast.rs` lines 124-129. -/
inductive TryStatement where
  | mk (try_block : Block) (catch_clauses : List CatchClause) (span : Span)

/-- `CatchClause` of `src/compiler/ast.rs` lines 131-136. -/
inductive CatchClause where
  | mk (exception_type : String) (handler_block : Block) (span : Span)

/-- `ReturnStatement` of `src/compiler/ast.rs` lines 138-142. -/
inductive ReturnStatement where
  | mk (value : Option Expression) (span : Span)

/-- `Block` of `src/compiler/ast.rs` lines 83-87. -/
inductive Block where
  | mk (statements : List Statement) (span : Span)

end

/-- `Function` of `src/compiler/ast.rs` lines 24-31. -/
structure Function where
  name : String
  parameters : List Parameter
  return_type : Ty
  body : Block
  span : Span

/-- `Item` of `src/compiler/ast.rs` lines 16-22. -/
inductive Item where
  | function (value : Function)
  | struct (value : Struct)
  | variable (value : Variable)
  | constant (value : Constant)

/-- `Import` of `src/compiler/ast.rs` lines 10-14. -/
structure Import where
  module_path : String
  span : Span
deriving DecidableEq, Repr

/-- `Program` of `src/compiler/ast.rs` lines 4-8. -/
structure Program where
  items : List Item
  imports : List Import

/-- Modelled from the spec: the type lowering table of §4.5
(`src/compiler/codegen.rs` is absent from the repository). -/
def genTy : Ty → String
  | .int => "i64"
  | .float => "f64"
  | .str => "String"
  | .bool => "bool"
  | .list t => "Vec<" ++ genTy t ++ ">"
  | .struct n => n
  | .void => "()"

/-- Modelled from the spec: direct operator mapping (§4.5). The arms are
listed comparison-first; patterns are disjoint, so the order is immaterial. -/
def binOpText : BinaryOperator → String
  | .ne => "!="
  | .eq => "=="
  | .ge => ">="
  | .gt => ">"
  | .le => "<="
  | .lt => "<"
  | .or => "||"
  | .and => "&&"
  | .mod => "%"
  | .div => "/"
  | .mul => "*"
  | .sub => "-"
  | .add => "+"

/-- Modelled from the spec: direct operator mapping (§4.5). -/
def unOpText : UnaryOperator → String
  | .neg => "-"
  | .not => "!"

/-- Modelled from the spec: literal lowering (§4.5); the float case renders
the carried bit pattern exactly. -/
def genLiteral : Literal → String
  | .integer n => toString n
  | .float f => "f64::from_bits(" ++ toString f.bits ++ ")"
  | .string s => "String::from(\"" ++ s ++ "\")"
  | .boolean b => if b then "true" else "false"

/-- First struct declaration with the given name (resolution of a
`Struct(name)` against the module's declarations). -/
def findStruct : List Struct → String → Option Struct
  | [], _ => none
  | s :: rest, n => if s.name = n then some s else findStruct rest n

/-- Association-list lookup on already-rendered field texts. -/
def lookupText : List (String × String) → String → Option String
  | [], _ => none
  | (k', v) :: rest, k => if k' = k then some v else lookupText rest k

mutual

/-- Modelled from the spec: expression lowering of the absent
`src/compiler/codegen.rs`, following the §4.5 mapping table. The
struct-initializer case iterates the struct's declared field order and looks
each value up by name (spec §4.5 and §9), never the field map's own order;
the per-value texts are pre-rendered by `genFieldVals` (in map order, which
cannot influence the output: only named lookups consult the result). A name
that resolves to no struct declaration or a missing field value cannot occur
in a validated AST (the generator performs no validation, §4.5); both fall
back to fixed text. Call-site default-argument filling (§4.5) is not
modelled: it re-emits parameter default expressions through this same
lowering, so it adds no dependence on the field map's order. -/
def genExpr (structs : List Struct) : Expression → String
  | .literal l => genLiteral l
  | .identifier i => i.name
  | .binary (.mk l op r _) =>
    "(" ++ genExpr structs l ++ " " ++ binOpText op ++ " " ++ genExpr structs r ++ ")"
  | .unary (.mk op e _) => "(" ++ unOpText op ++ genExpr structs e ++ ")"
  | .call (.mk f args _) =>
    genExpr structs f ++ "(" ++ String.intercalate ", " (genExprList structs args) ++ ")"
  | .memberAccess (.mk o m _) => genExpr structs o ++ "." ++ m
  | .list (.mk es _) => "vec![" ++ String.intercalate ", " (genExprList structs es) ++ "]"
  | .structInit (.mk n fields _) =>
    match findStruct structs n with
    | some decl =>
      let vals := genFieldVals structs fields
      n ++ " \x7b " ++ String.intercalate ", " (decl.fields.map (fun f =>
        f.name ++ ": " ++ ((lookupText vals f.name).getD "Default::default()"))) ++ " \x7d"
    | none => n ++ " \x7b \x7d"

/-- Lowering of an expression list (call arguments, list elements). -/
def genExprList (structs : List Struct) : List Expression → List String
  | [] => []
  | e :: es => genExpr structs e :: genExprList structs es

/-- The struct-initializer field map with each value lowered to text, in map
order; consumed only through named lookup (`lookupText`). -/
def genFieldVals (structs : List Struct) : List (String × Expression) → List (String × String)
  | [] => []
  | (k, v) :: rest => (k, genExpr structs v) :: genFieldVals structs rest

end

mutual

/-- Modelled from the spec: statement lowering of the absent
`src/compiler/codegen.rs` (§4.5): nested conditional chains keep order and
first-match-wins; for-in lowers to the target's iteration construct;
try/catch lowers to the try block followed by one handler per catch clause
in declaration order. -/
def genStmt (structs : List Struct) : Statement → String
  | .expression e => genExpr structs e ++ ";"
  | .varDecl v =>
    (if v.mutable then "let mut " else "let ") ++ v.name ++ ": " ++ genTy v.var_type
      ++ " = " ++ genExpr structs v.initializer ++ ";"
  | .assignment (.mk t v _) => genExpr structs t ++ " = " ++ genExpr structs v ++ ";"
  | .ifStmt (.mk c tb eifs eb _) =>
    "if " ++ genExpr structs c ++ " " ++ genBlock structs tb
      ++ String.join (genElseIfs structs eifs)
      ++ (match eb with
          | some b => " else " ++ genBlock structs b
          | none => "")
  | .forLoop (.mk v it b _) =>
    "for " ++ v ++ " in " ++ genExpr structs it ++ " " ++ genBlock structs b
  | .tryStmt (.mk tb cs _) => genBlock structs tb ++ String.join (genCatches structs cs)
  | .ret (.mk val _) =>
    match val with
    | some e => "return " ++ genExpr structs e ++ ";"
    | none => "return;"

/-- Lowering of a statement list, one rendered statement per element. -/
def genStmtList (structs : List Struct) : List Statement → List String
  | [] => []
  | s :: ss => genStmt structs s :: genStmtList structs ss

/-- Lowering of an else-if chain, in order (§4.5). -/
def genElseIfs (structs : List Struct) : List (Expression × Block) → List String
  | [] => []
  | (c, b) :: rest =>
    (" else if " ++ genExpr structs c ++ " " ++ genBlock structs b) :: genElseIfs structs rest

/-- Lowering of catch clauses, in declaration order (§4.5). -/
def genCatches (structs : List Struct) : List CatchClause → List String
  | [] => []
  | .mk ty hb _ :: rest =>
    (" catch (" ++ ty ++ ") " ++ genBlock structs hb) :: genCatches structs rest

/-- Lowering of a block to a braced statement sequence. -/
def genBlock (structs : List Struct) : Block → String
  | .mk stmts _ => "\x7b " ++ String.intercalate " " (genStmtList structs stmts) ++ " \x7d"

end

/-- Modelled from the spec: parameter lowering; the target function retains
the full parameter list (§4.5). -/
def genParameter (p : Parameter) : String :=
  p.name ++ ": " ++ genTy p.param_type

/-- Modelled from the spec: struct declaration lowering, fields in declared
order (§4.5). -/
def genStructDecl (s : Struct) : String :=
  "struct " ++ s.name ++ " \x7b "
    ++ String.intercalate ", " (s.fields.map (fun f => f.name ++ ": " ++ genTy f.field_type))
    ++ " \x7d"

/-- Modelled from the spec: item lowering of the absent
`src/compiler/codegen.rs`. -/
def genItem (structs : List Struct) : Item → String
  | .function f =>
    "fn " ++ f.name ++ "(" ++ String.intercalate ", " (f.parameters.map genParameter)
      ++ ") -> " ++ genTy f.return_type ++ " " ++ genBlock structs f.body
  | .struct s => genStructDecl s
  | .variable v =>
    (if v.mutable then "static mut " else "static ") ++ v.name ++ ": " ++ genTy v.var_type
      ++ " = " ++ genExpr structs v.initializer ++ ";"
  | .constant c =>
    "const " ++ c.name ++ ": " ++ genTy c.const_type ++ " = " ++ genExpr structs c.value ++ ";"

/-- Modelled from the spec: import lowering (a module dependency declaration,
treated as a target `use`). -/
def genImport (i : Import) : String :=
  "use " ++ i.module_path ++ ";"

/-- The struct declarations of a module, in declaration order (the
generator resolves struct initializers against them). -/
def structsOf (p : Program) : List Struct :=
  p.items.filterMap (fun i =>
    match i with
    | .struct s => some s
    | _ => none)

/-- Modelled from the spec: `CodeGenerator::generate` of the absent
`src/compiler/codegen.rs` — lowers a validated AST into target source text,
deterministically (§4.5). -/
def generate (ast : Program) (module_name : String) : String :=
  let structs := structsOf ast
  "// module: " ++ module_name ++ "\n"
    ++ String.intercalate "\n" (ast.imports.map genImport) ++ "\n"
    ++ String.intercalate "\n" (ast.items.map (genItem structs))

mutual

/-- Applies an arbitrary re-listing `σ` to the association list of every
struct initializer of an expression, recursively. When `σ` preserves lookup
(`PreservesLookup`), `reorderExpr σ e` and `e` denote the same AST over the
map reading of `StructInitializer.fields` — the same tree with another
iteration order of each field map, i.e. another run over the same
`HashMap` contents. -/
def reorderExpr (σ : List (String × Expression) → List (String × Expression)) :
    Expression → Expression
  | .literal l => .literal l
  | .identifier i => .identifier i
  | .binary (.mk l op r sp) => .binary (.mk (reorderExpr σ l) op (reorderExpr σ r) sp)
  | .unary (.mk op e sp) => .unary (.mk op (reorderExpr σ e) sp)
  | .call (.mk f args sp) => .call (.mk (reorderExpr σ f) (reorderExprList σ args) sp)
  | .memberAccess (.mk o m sp) => .memberAccess (.mk (reorderExpr σ o) m sp)
  | .list (.mk es sp) => .list (.mk (reorderExprList σ es) sp)
  | .structInit (.mk n fields sp) => .structInit (.mk n (σ (reorderFieldList σ fields)) sp)

/-- `reorderExpr` over an expression list. -/
def reorderExprList (σ : List (String × Expression) → List (String × Expression)) :
    List Expression → List Expression
  | [] => []
  | e :: es => reorderExpr σ e :: reorderExprList σ es

/-- `reorderExpr` over the values of a field map. -/
def reorderFieldList (σ : List (String × Expression) → List (String × Expression)) :
    List (String × Expression) → List (String × Expression)
  | [] => []
  | (k, v) :: rest => (k, reorderExpr σ v) :: reorderFieldList σ rest

end

mutual

/-- `reorderExpr` lifted to statements. -/
def reorderStmt (σ : List (String × Expression) → List (String × Expression)) :
    Statement → Statement
  | .expression e => .expression (reorderExpr σ e)
  | .varDecl v => .varDecl { v with initializer := reorderExpr σ v.initializer }
  | .assignment (.mk t v sp) => .assignment (.mk (reorderExpr σ t) (reorderExpr σ v) sp)
  | .ifStmt (.mk c tb eifs eb sp) =>
    .ifStmt (.mk (reorderExpr σ c) (reorderBlock σ tb) (reorderElseIfs σ eifs)
      (match eb with
       | some b => some (reorderBlock σ b)
       | none => none) sp)
  | .forLoop (.mk v it b sp) => .forLoop (.mk v (reorderExpr σ it) (reorderBlock σ b) sp)
  | .tryStmt (.mk tb cs sp) => .tryStmt (.mk (reorderBlock σ tb) (reorderCatches σ cs) sp)
  | .ret (.mk val sp) => .ret (.mk (val.map (reorderExpr σ)) sp)

/-- `reorderStmt` over a statement list. -/
def reorderStmtList (σ : List (String × Expression) → List (String × Expression)) :
    List Statement → List Statement
  | [] => []
  | s :: ss => reorderStmt σ s :: reorderStmtList σ ss

/-- `reorderExpr`/`reorderBlock` over an else-if chain. -/
def reorderElseIfs (σ : List (String × Expression) → List (String × Expression)) :
    List (Expression × Block) → List (Expression × Block)
  | [] => []
  | (c, b) :: rest => (reorderExpr σ c, reorderBlock σ b) :: reorderElseIfs σ rest

/-- `reorderBlock` over catch clauses. -/
def reorderCatches (σ : List (String × Expression) → List (String × Expression)) :
    List CatchClause → List CatchClause
  | [] => []
  | .mk ty hb sp :: rest => .mk ty (reorderBlock σ hb) sp :: reorderCatches σ rest

/-- `reorderStmt` over a block. -/
def reorderBlock (σ : List (String × Expression) → List (String × Expression)) :
    Block → Block
  | .mk stmts sp => .mk (reorderStmtList σ stmts) sp

end

/-- `reorderExpr` over a parameter's default value. -/
def reorderParameter (σ : List (String × Expression) → List (String × Expression))
    (p : Parameter) : Parameter :=
  { p with default_value := p.default_value.map (reorderExpr σ) }

/-- `reorderExpr` lifted to items; struct declarations contain no
expressions and are unchanged. -/
def reorderItem (σ : List (String × Expression) → List (String × Expression)) :
    Item → Item
  | .function f =>
    .function { f with parameters := f.parameters.map (reorderParameter σ)
                       body := reorderBlock σ f.body }
  | .struct s => .struct s
  | .variable v => .variable { v with initializer := reorderExpr σ v.initializer }
  | .constant c => .constant { c with value := reorderExpr σ c.value }

/-- `reorderExpr` lifted to whole programs: the same program with every
struct-initializer field map re-listed by `σ`. -/
def reorderProgram (σ : List (String × Expression) → List (String × Expression))
    (p : Program) : Program :=
  { p with items := p.items.map (reorderItem σ) }

/-- `σ` preserves the map reading of every association list: re-listing by
`σ` changes no lookup. Any iteration order of one `HashMap`'s contents is
such a re-listing of any other. -/
def PreservesLookup (σ : List (String × Expression) → List (String × Expression)) : Prop :=
  ∀ l k, lookupField (σ l) k = lookupField l k

/-- The module registry of `RusticCompiler` (`src/compiler/mod.rs` lines
21-24): `HashMap<String, Program>` as an association list; `insertModule`
is `HashMap::insert` (replace the value at an existing key, else add). -/
structure CompilerState where
  modules : List (String × Program)

/-- `HashMap::insert` on the association-list model of the module registry. -/
def insertModule (ms : List (String × Program)) (k : String) (v : Program) :
    List (String × Program) :=
  if ms.any (fun p => p.1 = k) then ms.map (fun p => if p.1 = k then (k, v) else p)
  else ms ++ [(k, v)]

/-- One filesystem entry seen by directory compilation: a path and the
outcome of `fs::read_to_string` on it (`none` models a read failure). -/
structure DirEntry where
  path : String
  contents : Option String
deriving DecidableEq, Repr

/-- A filesystem effect of the compiler driver, for stating what was read
and written. -/
inductive FsEvent where
  | readFile (path : String)
  | wroteFile (path : String) (contents : String)
deriving DecidableEq, Repr

/-- Modelled from the spec: the stages `compile_source` invokes whose code is
absent from the repository — `Parser::parse` (`src/compiler/parser.rs`),
`SemanticAnalyzer::analyze` (`src/compiler/semantic.rs`) — as black-box
functions, and the outcomes of `fs::create_dir_all` and `fs::write` as
oracles keyed by path. The code generator is the concrete `generate` above. -/
structure Stages where
  parse : List Token → Except CompileError Program
  analyze : Program → Except CompileError Unit
  createDirOk : String → Bool
  writeOk : String → Bool

/-- `compile_source` of `src/compiler/mod.rs` lines 77-106: tokenize, parse,
analyze, then (line 93) insert the module into the registry, then generate,
create the output directory, and write `{output_dir}/{module_name}.rs`.
Returns the `Result`, the registry state after the call, and the write
events performed. Each `?` returns the error with the state as it stands at
that point. -/
def compileSource (st : Stages) (cst : CompilerState)
    (source module_name file_path output_dir : String) :
    Except CompileError String × CompilerState × List FsEvent :=
  match tokenize source file_path with
  | .error e => (.error e, cst, [])
  | .ok tokens =>
    match st.parse tokens with
    | .error e => (.error e, cst, [])
    | .ok ast =>
      match st.analyze ast with
      | .error e => (.error e, cst, [])
      | .ok _ =>
        let cst' : CompilerState := ⟨insertModule cst.modules module_name ast⟩
        let rust_code := generate ast module_name
        if st.createDirOk output_dir then
          let rust_file_path := output_dir ++ "/" ++ module_name ++ ".rs"
          if st.writeOk rust_file_path then
            (.ok rust_file_path, cst', [.wroteFile rust_file_path rust_code])
          else (.error (.ioError "Failed to write Rust file"), cst', [])
        else (.error (.ioError "Failed to create output directory"), cst', [])

/-- The characters of a path's last component, accumulating the current
component in reverse and restarting at each separator. -/
def lastComponentAux : List Char → List Char → List Char
  | [], acc => acc.reverse
  | c :: rest, acc =>
    if c = '/' then lastComponentAux rest []
    else lastComponentAux rest (c :: acc)

/-- Last path component (what `Path::file_name` sees), splitting on `/`. -/
def pathLastComponent (p : String) : String :=
  String.mk (lastComponentAux p.toList [])

/-- Splits a file name at its last dot: `some (before, after)` when a dot
exists, else `none`. -/
def splitAtLastDot : List Char → Option (List Char × List Char)
  | [] => none
  | c :: rest =>
    match splitAtLastDot rest with
    | some (before, after) => some (c :: before, after)
    | none => if c = '.' then some ([], rest) else none

/-- `Path::extension`: the part of the file name after its last dot; `none`
when there is no dot or the name's only dot leads it (a hidden file such as
`.rsc` has no extension). -/
def pathExtension (p : String) : Option String :=
  match splitAtLastDot (pathLastComponent p).toList with
  | none => none
  | some (before, after) => if before = [] then none else some (String.mk after)

/-- `Path::file_stem`: the file name up to its last dot; the whole name when
there is no dot or the name's only dot leads it; `none` for an empty name. -/
def pathFileStem (p : String) : Option String :=
  let name := pathLastComponent p
  match splitAtLastDot name.toList with
  | none => if name = "" then none else some name
  | some (before, after) =>
    if before = [] then some name
    else
      let _ := after
      some (String.mk before)

/-- The loop of `compile_directory` (`src/compiler/mod.rs` lines 48-75) over
the recursively discovered entries, in walk order: entries whose path has
extension `rsc` are read (a failed read is an I/O error propagated by `?`)
and compiled as a module named after the file stem (`unwrap_or("unnamed")`);
any error aborts the loop via `?`. `acc` and `ev` accumulate generated file
paths and filesystem events. -/
def compileDirLoop (st : Stages) (output_dir : String) :
    List DirEntry → CompilerState → List String → List FsEvent →
    Except CompileError (List String) × CompilerState × List FsEvent
  | [], cst, acc, ev => (.ok acc, cst, ev)
  | e :: rest, cst, acc, ev =>
    if pathExtension e.path = some "rsc" then
      let ev' := ev ++ [.readFile e.path]
      match e.contents with
      | none => (.error (.ioError ("Failed to read file " ++ e.path)), cst, ev')
      | some source =>
        let module_name := (pathFileStem e.path).getD "unnamed"
        match compileSource st cst source module_name e.path output_dir with
        | (.error err, cst', ev2) => (.error err, cst', ev' ++ ev2)
        | (.ok rust_file, cst', ev2) =>
          compileDirLoop st output_dir rest cst' (acc ++ [rust_file]) (ev' ++ ev2)
    else compileDirLoop st output_dir rest cst acc ev

/-- `compile_directory` of `src/compiler/mod.rs` lines 48-75. The walkdir
traversal is abstracted to the list of discovered entries in walk order. -/
def compileDirectory (st : Stages) (cst : CompilerState) (entries : List DirEntry)
    (output_dir : String) :
    Except CompileError (List String) × CompilerState × List FsEvent :=
  compileDirLoop st output_dir entries cst [] []

/-- An observable action of `main` (`src/main.rs`): a line on stdout, a
message on stderr, or the Diagnostics Engine's `emit_all()` rendering every
accumulated diagnostic to the error stream. -/
inductive MainEvent where
  | printed (text : String)
  | eprinted (text : String)
  | emittedDiagnostics
deriving DecidableEq, Repr

/-- Modelled from the spec: the `Display` rendering of the diagnostics error
enum (`src/diagnostics.rs` is absent); the carried message. -/
def errorMessage : CompileError → String
  | .lexError m => m
  | .parseError m => m
  | .semanticError m => m
  | .ioError m => m
  | .compilationError m => m

/-- `main` of `src/main.rs` lines 52-96, after argument parsing: given the
result of `compile_file`/`compile_directory`, the `--compile` flag, and the
native build's result (consulted only when reached), the process exit code
and the ordered observable events. On a compile error `main` prints the
error, calls `emit_all()`, and exits 1; on a native-build error (lines
81-84) it prints the error and exits 1 — without calling `emit_all()`;
otherwise it falls through to the success message and exits 0. -/
def mainRun (verbose : Bool) (input_path output_dir : String)
    (compile_result : Except CompileError (List String))
    (should_compile : Bool)
    (native_result : Except CompileError String) : Nat × List MainEvent :=
  let ev0 : List MainEvent :=
    if verbose then
      [.printed "Rustic Compiler v0.1.0", .printed ("Input: " ++ input_path),
       .printed ("Output: " ++ output_dir)]
    else []
  match compile_result with
  | .ok generated_files =>
    let ev1 := ev0 ++
      (if verbose then
        .printed ("Generated " ++ toString generated_files.length ++ " Rust files:")
          :: generated_files.map (fun f => .printed ("  " ++ f))
       else [])
    if should_compile then
      match native_result with
      | .ok binary_path =>
        (0, ev1 ++ [.printed ("Successfully compiled to: " ++ binary_path),
                    .printed "Compilation successful!"])
      | .error e => (1, ev1 ++ [.eprinted ("Compilation failed: " ++ errorMessage e)])
    else (0, ev1 ++ [.printed "Compilation successful!"])
  | .error e => (1, ev0 ++ [.eprinted ("Error: " ++ errorMessage e), .emittedDiagnostics])

/-- A fixed span for concrete sample data. -/
def sampleSpan : Span :=
  ⟨"sample.rsc", 1, 1, 1, 1⟩

/-- A sample struct declaration `Point \x7b x: int, y: int \x7d`. -/
def pointStruct : Struct :=
  { name := "Point"
    fields := [⟨"x", .int, sampleSpan⟩, ⟨"y", .int, sampleSpan⟩]
    span := sampleSpan }

/-- A sample initializer of `Point` whose field map lists `x` first. -/
def initXY : StructInitializer :=
  .mk "Point" [("x", .literal (.integer 1)), ("y", .literal (.integer 2))] sampleSpan

/-- The same map contents as `initXY` listed in the other order. -/
def initYX : StructInitializer :=
  .mk "Point" [("y", .literal (.integer 2)), ("x", .literal (.integer 1))] sampleSpan

/-- A sample module: a struct declaration and a global initialized from a
struct literal. -/
def sampleProgram : Program :=
  { items := [.struct pointStruct,
              .variable { name := "p", var_type := .struct "Point"
                          initializer := .structInit initYX, mutable := false
                          span := sampleSpan }]
    imports := [⟨"core", sampleSpan⟩] }

/-- A lookup-preserving re-listing: swaps the first two entries when their
keys differ (as two iteration orders of one map may). -/
def swapHead : List (String × Expression) → List (String × Expression)
  | a :: b :: t => if a.1 = b.1 then a :: b :: t else b :: a :: t
  | l => l

/-- The empty module. -/
def emptyProgram : Program :=
  ⟨[], []⟩

/-- Stage oracles under which every pipeline stage and filesystem call
succeeds (the parser is a stub returning the empty module). -/
def stagesAllOk : Stages :=
  ⟨fun _ => .ok emptyProgram, fun _ => .ok (), fun _ => true, fun _ => true⟩

/-- Stage oracles under which the pipeline succeeds but every `fs::write`
fails. -/
def stagesWriteFails : Stages :=
  ⟨fun _ => .ok emptyProgram, fun _ => .ok (), fun _ => true, fun _ => false⟩

/-- The directory walk's selection test: the entry's path has the reserved
`rsc` extension (`src/compiler/mod.rs` line 53). -/
def isRsc (e : DirEntry) : Bool :=
  decide (pathExtension e.path = some "rsc")

/-- The module name of an entry: its file stem, `"unnamed"` when absent
(`src/compiler/mod.rs` lines 58-62). -/
def moduleStem (e : DirEntry) : String :=
  (pathFileStem e.path).getD "unnamed"

/-- The output path `compile_source` writes for an entry's module
(`src/compiler/mod.rs` line 101). -/
def outPath (output_dir : String) (e : DirEntry) : String :=
  output_dir ++ "/" ++ moduleStem e ++ ".rs"

/-- Whether an entry's module compiles: its read succeeds and its
`compile_source` run returns `Ok` (the run's result does not depend on the
registry state, `compileSource_state_indep`). -/
def entryCompiles (st : Stages) (output_dir : String) (e : DirEntry) : Bool :=
  match e.contents with
  | none => false
  | some source =>
    match (compileSource st ⟨[]⟩ source (moduleStem e) e.path output_dir).1 with
    | .ok _ => true
    | .error _ => false

/-- The filesystem events one successfully compiled `rsc` entry contributes:
its read, then the events of its `compile_source` run. -/
def entryEvents (st : Stages) (output_dir : String) (e : DirEntry) : List FsEvent :=
  .readFile e.path :: (compileSource st ⟨[]⟩ (e.contents.getD "") (moduleStem e) e.path output_dir).2.2

/-! Lemmas about the lexer: every scanning step consumes input and yields
either a lex error or a non-`Eof`, non-`Percent` token. These feed the fuel
sufficiency argument for `tokenizeLoop` and the Eof-termination claim. -/

theorem skipWhitespace_length_le (cs : List Char) : ∀ col, (skipWhitespace cs col).1.length ≤ cs.length := by
  induction cs with
  | nil => intro col; simp [skipWhitespace]
  | cons c rest ih =>
    intro col
    simp only [skipWhitespace]
    split
    · exact (ih _).trans (Nat.le_succ _)
    · simp

theorem skipComment_spec : ∀ (cs : List Char) (line col : Nat),
    (∃ m, skipComment cs line col = .error (.lexError m)) ∨
    ∃ cs' l', skipComment cs line col = .ok (.newline, cs', l', 1) ∧ cs'.length ≤ cs.length := by
  intro cs
  induction cs with
  | nil => intro line col; exact .inl ⟨_, rfl⟩
  | cons c rest ih =>
    intro line col
    by_cases h : c = '\n'
    · subst h
      exact .inr ⟨rest, line + 1, by simp [skipComment], Nat.le_succ _⟩
    · have heq : skipComment (c :: rest) line col = skipComment rest line (col + 1) := by
        simp [skipComment, h]
      rcases ih line (col + 1) with ⟨m, hm⟩ | ⟨cs', l', hok, hle⟩
      · exact .inl ⟨m, heq.trans hm⟩
      · exact .inr ⟨cs', l', heq.trans hok, hle.trans (Nat.le_succ _)⟩

theorem scanString_spec : ∀ (cs : List Char) (line col : Nat) (v : String),
    (∃ m, scanString cs line col v = .error (.lexError m)) ∨
    ∃ s cs' l' c', scanString cs line col v = .ok (s, cs', l', c') ∧ cs'.length ≤ cs.length := by
  intro cs line col v
  induction cs, line, col, v using scanString.induct with
  | case1 _line _col _v => exact .inl ⟨_, rfl⟩
  | case2 rest line col v => exact .inr ⟨_, _, _, _, rfl, Nat.le_succ _⟩
  | case3 line col v => exact .inl ⟨_, rfl⟩
  | case4 line col v rest2 ih =>
    rcases ih with ⟨m, hm⟩ | ⟨s, cs', l', c', hok, hle⟩
    · exact .inl ⟨m, hm⟩
    · exact .inr ⟨s, cs', l', c', hok, by simp only [List.length_cons]; omega⟩
  | case5 line col v rest2 _h1 ih =>
    rcases ih with ⟨m, hm⟩ | ⟨s, cs', l', c', hok, hle⟩
    · exact .inl ⟨m, hm⟩
    · exact .inr ⟨s, cs', l', c', hok, by simp only [List.length_cons]; omega⟩
  | case6 line col v rest2 _h1 _h2 ih =>
    rcases ih with ⟨m, hm⟩ | ⟨s, cs', l', c', hok, hle⟩
    · exact .inl ⟨m, hm⟩
    · exact .inr ⟨s, cs', l', c', hok, by simp only [List.length_cons]; omega⟩
  | case7 line col v rest2 _h1 _h2 _h3 ih =>
    rcases ih with ⟨m, hm⟩ | ⟨s, cs', l', c', hok, hle⟩
    · exact .inl ⟨m, hm⟩
    · exact .inr ⟨s, cs', l', c', hok, by simp only [List.length_cons]; omega⟩
  | case8 line col v rest2 _h1 _h2 _h3 _h4 ih =>
    rcases ih with ⟨m, hm⟩ | ⟨s, cs', l', c', hok, hle⟩
    · exact .inl ⟨m, hm⟩
    · exact .inr ⟨s, cs', l', c', hok, by simp only [List.length_cons]; omega⟩
  | case9 line col v e rest2 h1 h2 h3 h4 h5 =>
    left
    exact ⟨"Invalid escape sequence: \\" ++ String.singleton e, by
      simp [scanString, h1, h2, h3, h4, h5]⟩
  | case10 rest line col v h1 h2 ih =>
    rcases ih with ⟨m, hm⟩ | ⟨s, cs', l', c', hok, hle⟩
    · exact .inl ⟨m, hm⟩
    · exact .inr ⟨s, cs', l', c', hok, hle.trans (Nat.le_succ _)⟩
  | case11 c rest line col v h1 h2 h3 ih =>
    have heq : scanString (c :: rest) line col v = scanString rest line (col + 1) (v.push c) := by
      rw [scanString.eq_def]
      repeat' split
      all_goals simp_all
    rcases ih with ⟨m, hm⟩ | ⟨s, cs', l', c', hok, hle⟩
    · exact .inl ⟨m, heq.trans hm⟩
    · exact .inr ⟨s, cs', l', c', heq.trans hok, hle.trans (Nat.le_succ _)⟩

theorem scanNumber_spec (c : Char) (cs : List Char) (line col : Nat) :
    (scanNumber c cs line col).2.1.length ≤ cs.length ∧
    ((∃ n, (scanNumber c cs line col).1 = .integer n) ∨
      ∃ b, (scanNumber c cs line col).1 = .float b) := by
  have hsub : (cs.dropWhile Char.isDigit).length ≤ cs.length :=
    (List.dropWhile_sublist Char.isDigit).length_le
  simp only [scanNumber]
  split
  · next d rest2 heq =>
    split_ifs with hd
    · refine ⟨?_, .inr ⟨_, rfl⟩⟩
      have h2 : ((d :: rest2).dropWhile Char.isDigit).length ≤ rest2.length + 1 := by
        simpa using (List.dropWhile_sublist (l := d :: rest2) Char.isDigit).length_le
      have h3 : rest2.length + 2 ≤ cs.length := by
        have := heq ▸ hsub
        simpa using this
      simp only []
      omega
    · exact ⟨heq ▸ hsub, .inl ⟨_, rfl⟩⟩
  · exact ⟨hsub, .inl ⟨_, rfl⟩⟩

theorem keywordOrIdentifier_ne (s : String) :
    keywordOrIdentifier s ≠ .eof ∧ keywordOrIdentifier s ≠ .percent := by
  unfold keywordOrIdentifier
  split
  · next p hp =>
    have hmem : p ∈ keywordTable := List.mem_of_find?_eq_some hp
    have hall : ∀ q ∈ keywordTable, q.2 ≠ TokenType.eof ∧ q.2 ≠ TokenType.percent := by decide
    exact hall p hmem
  · exact ⟨(fun h => nomatch h), (fun h => nomatch h)⟩

theorem scanIdentifier_spec (c : Char) (cs : List Char) (line col : Nat) :
    (scanIdentifier c cs line col).2.1.length ≤ cs.length ∧
    (scanIdentifier c cs line col).1 ≠ .eof ∧ (scanIdentifier c cs line col).1 ≠ .percent := by
  refine ⟨?_, ?_, ?_⟩
  · exact (List.dropWhile_sublist _).length_le
  · exact (keywordOrIdentifier_ne _).1
  · exact (keywordOrIdentifier_ne _).2

theorem scanToken_spec (c : Char) (rest : List Char) (line col : Nat) :
    (∃ m, scanToken (c :: rest) line col = .error (.lexError m)) ∨
    ∃ tt cs' l' c', scanToken (c :: rest) line col = .ok (tt, cs', l', c') ∧
      cs'.length < (c :: rest).length ∧ tt ≠ TokenType.eof ∧ tt ≠ TokenType.percent := by
  simp only [scanToken]
  split
  all_goals try
    exact .inr ⟨_, _, _, _, rfl, by simp only [List.length_cons]; omega, by decide, by decide⟩
  all_goals try
    · split
      all_goals first
        | exact .inl ⟨_, rfl⟩
        | exact .inr ⟨_, _, _, _, rfl, by simp only [List.length_cons]; omega, by decide,
            by decide⟩
  -- the `/` arm: a `//` comment re-scans after the comment body
  · split
    · next r =>
      rcases skipComment_spec r line (col + 1 + 1) with ⟨m, hm⟩ | ⟨cs', l', hok, hle⟩
      · exact .inl ⟨m, hm⟩
      · refine .inr ⟨_, _, _, _, hok, ?_, by decide, by decide⟩
        simp only [List.length_cons]
        omega
    · exact .inr ⟨_, _, _, _, rfl, by simp only [List.length_cons]; omega, by decide, by decide⟩
  -- the `"` arm: a string literal
  · rcases hs : scanString rest line (col + 1) "" with e | ⟨s, cs', l', c'⟩
    · rcases scanString_spec rest line (col + 1) "" with ⟨m, hm⟩ | ⟨s2, cs2, l2, c2, hok, _⟩
      · obtain rfl : CompileError.lexError m = e := Except.error.inj (hm.symm.trans hs)
        exact .inl ⟨m, rfl⟩
      · rw [hok] at hs
        exact absurd hs (by simp)
    · rcases scanString_spec rest line (col + 1) "" with ⟨m, hm⟩ | ⟨s2, cs2, l2, c2, hok, hle⟩
      · rw [hm] at hs
        exact absurd hs (by simp)
      · have htup := Except.ok.inj (hok.symm.trans hs)
        simp only [Prod.mk.injEq] at htup
        obtain ⟨rfl, rfl, rfl, rfl⟩ := htup
        refine .inr ⟨_, _, _, _, rfl, ?_, (fun hh => nomatch hh), (fun hh => nomatch hh)⟩
        simp only [List.length_cons]
        omega
  -- the catch-all arm: digits, identifier characters, or a lex error
  · split_ifs with hd ha
    · rcases hq : scanNumber c rest line (col + 1) with ⟨tt, cs', l', c'⟩
      have hspec := scanNumber_spec c rest line (col + 1)
      rw [hq] at hspec
      rcases hspec with ⟨hlen, hform⟩
      have hlen' : cs'.length ≤ rest.length := hlen
      refine .inr ⟨tt, cs', l', c', rfl, ?_, ?_, ?_⟩
      · simp only [List.length_cons]
        omega
      · rcases hform with ⟨n, h⟩ | ⟨b, h⟩ <;> rw [show tt = _ from h] <;>
          exact fun hh => nomatch hh
      · rcases hform with ⟨n, h⟩ | ⟨b, h⟩ <;> rw [show tt = _ from h] <;>
          exact fun hh => nomatch hh
    · rcases hq : scanIdentifier c rest line (col + 1) with ⟨tt, cs', l', c'⟩
      have hspec := scanIdentifier_spec c rest line (col + 1)
      rw [hq] at hspec
      rcases hspec with ⟨hlen, hne1, hne2⟩
      have hlen' : cs'.length ≤ rest.length := hlen
      refine .inr ⟨tt, cs', l', c', rfl, ?_, hne1, hne2⟩
      simp only [List.length_cons]
      omega
    · exact .inl ⟨_, rfl⟩

theorem tokenizeLoop_spec (file : String) : ∀ (fuel : Nat) (cs : List Char) (line col : Nat)
    (acc : List Token), cs.length < fuel →
    (∃ m, tokenizeLoop file fuel cs line col acc = .error (.lexError m)) ∨
    ∃ mid lineE colE, tokenizeLoop file fuel cs line col acc =
        .ok (acc ++ (mid ++ [eofToken file lineE colE])) ∧
      ∀ t ∈ mid, t.token_type ≠ TokenType.eof := by
  intro fuel
  induction fuel with
  | zero => intro cs line col acc h; omega
  | succ fuel ih =>
    intro cs line col acc h
    match cs with
    | [] =>
      right
      exact ⟨[], line, col, by simp [tokenizeLoop], by simp⟩
    | c :: cs0 =>
      rcases hsw : skipWhitespace (c :: cs0) col with ⟨cs', col'⟩
      have hswlen : cs'.length ≤ (c :: cs0).length := by
        have h0 := skipWhitespace_length_le (c :: cs0) col
        rw [hsw] at h0
        exact h0
      cases cs' with
      | nil =>
        right
        exact ⟨[], line, col', by simp [tokenizeLoop, hsw], by simp⟩
      | cons c1 cs1 =>
        have hred : tokenizeLoop file (fuel + 1) (c :: cs0) line col acc =
            (match scanToken (c1 :: cs1) line col' with
             | .error e => .error e
             | .ok (tt, cs'', line'', col'') =>
               tokenizeLoop file fuel cs'' line'' col''
                 (acc ++ [{ token_type := tt
                            span := { file := file, start_line := line, start_column := col'
                                      end_line := line'', end_column := col'' } }])) := by
          simp [tokenizeLoop, hsw]
        rcases scanToken_spec c1 cs1 line col' with ⟨m, hm⟩ | ⟨tt, cs'', l'', c'', hok, hlt, hne, _⟩
        · left
          exact ⟨m, by rw [hred, hm]⟩
        · have hlen2 : cs''.length < fuel := by
            simp only [List.length_cons] at h hswlen hlt
            omega
          rcases ih cs'' l'' c''
              (acc ++ [{ token_type := tt
                         span := { file := file, start_line := line, start_column := col'
                                   end_line := l'', end_column := c'' } }]) hlen2 with
            ⟨m, hm2⟩ | ⟨mid, lE, cE, hok2, hmid⟩
          · left
            refine ⟨m, ?_⟩
            rw [hred, hok]
            exact hm2
          · right
            refine ⟨{ token_type := tt
                      span := { file := file, start_line := line, start_column := col'
                                end_line := l'', end_column := c'' } } :: mid, lE, cE, ?_, ?_⟩
            · rw [hred, hok]
              exact hok2.trans (by simp)
            · intro t ht
              rcases List.mem_cons.mp ht with rfl | hm3
              · exact hne
              · exact hmid t hm3

/-- C8: for every input, `tokenize` either returns an error at the first
erroneous character — a lex error, carrying no tokens (the `Result` type
admits no partial token stream) — or returns a non-empty token sequence
whose last token is `Eof` (and which contains `Eof` nowhere earlier). -/
theorem tokenize_error_or_eof_terminated (source file : String) :
    (∃ m, tokenize source file = .error (.lexError m)) ∨
    ∃ ts, tokenize source file = .ok ts ∧ ts ≠ [] ∧
      (∀ t ∈ ts.dropLast, t.token_type ≠ TokenType.eof) ∧
      ∃ t, ts.getLast? = some t ∧ t.token_type = TokenType.eof := by
  rcases tokenizeLoop_spec file (source.toList.length + 1) source.toList 1 1 []
      (Nat.lt_succ_self _) with ⟨m, hm⟩ | ⟨mid, lE, cE, hok, hmid⟩
  · exact .inl ⟨m, hm⟩
  · right
    refine ⟨mid ++ [eofToken file lE cE], ?_, by simp, ?_, ?_⟩
    · simpa using hok
    · rw [List.dropLast_concat]
      exact hmid
    · exact ⟨eofToken file lE cE, List.getLast?_concat _, rfl⟩

/-- C10: a newline outside string literals and comments is not skipped as
whitespace; `scan_token` emits a `Newline` token for it, incrementing the
line counter and resetting the column to 1 (lexer.rs lines 112-116). The
concrete conjunct shows the token in a full `tokenize` run, with its span
straddling the line break. -/
theorem newline_emitted_as_token :
    (∀ (rest : List Char) (col : Nat), skipWhitespace ('\n' :: rest) col = ('\n' :: rest, col)) ∧
    (∀ (rest : List Char) (line col : Nat),
      scanToken ('\n' :: rest) line col = .ok (.newline, rest, line + 1, 1)) ∧
    tokenize "a\nb" "f" = .ok
      [⟨.identifier "a", ⟨"f", 1, 1, 1, 2⟩⟩,
       ⟨.newline, ⟨"f", 1, 2, 2, 1⟩⟩,
       ⟨.identifier "b", ⟨"f", 2, 1, 2, 2⟩⟩,
       ⟨.eof, ⟨"f", 2, 2, 2, 2⟩⟩] := by
  refine ⟨fun rest col => rfl, fun rest line col => rfl, rfl⟩

/-- C3 (code bug): `%` in operator position is not lexed as the modulo
operator: `lexer.rs:111` writes the pattern `'('` (an unreachable duplicate
of line 100's arm) where `'%'` was intended, so `%` falls to the
unexpected-character arm, and no input ever produces `TokenType::Percent`. -/
theorem percent_is_an_unexpected_character :
    tokenize "1 % 2" "f" = .error (.lexError "Unexpected character: %") ∧
    ∀ (cs : List Char) (line col : Nat) (tt : TokenType) (cs' : List Char) (l' c' : Nat),
      scanToken cs line col = .ok (tt, cs', l', c') → tt ≠ TokenType.percent := by
  refine ⟨rfl, fun cs line col tt cs' l' c' h => ?_⟩
  cases cs with
  | nil => exact absurd h (by simp [scanToken])
  | cons c rest =>
    rcases scanToken_spec c rest line col with ⟨m, hm⟩ | ⟨tt2, cs2, l2, c2, hok, _, _, hnp⟩
    · rw [hm] at h
      exact absurd h (by simp)
    · rw [hok] at h
      have htup := Except.ok.inj h
      simp only [Prod.mk.injEq] at htup
      obtain ⟨rfl, -, -, -⟩ := htup
      exact hnp

/-- C7 (amended): the escapes `\n \t \r \\ \"` are translated to their
characters; any other escape sequence is a lex error (at end of input the
modelled safe `advance` makes a trailing backslash an invalid escape of the
NUL sentinel rather than an unterminated-string error); reaching end of
input before the closing quote while not mid-escape is the lex error
"Unterminated string"; and a lex error halts the module's pipeline before
parsing begins — `compile_source` returns it unchanged for every parser and
analyzer, with the registry untouched and nothing written. -/
theorem string_escape_and_unterminated_handling :
    (∀ (rest : List Char) (line col : Nat) (v : String),
      scanString ('\\' :: 'n' :: rest) line col v = scanString rest line (col + 2) (v.push '\n')) ∧
    (∀ (rest : List Char) (line col : Nat) (v : String),
      scanString ('\\' :: 't' :: rest) line col v = scanString rest line (col + 2) (v.push '\t')) ∧
    (∀ (rest : List Char) (line col : Nat) (v : String),
      scanString ('\\' :: 'r' :: rest) line col v = scanString rest line (col + 2) (v.push '\r')) ∧
    (∀ (rest : List Char) (line col : Nat) (v : String),
      scanString ('\\' :: '\\' :: rest) line col v = scanString rest line (col + 2) (v.push '\\')) ∧
    (∀ (rest : List Char) (line col : Nat) (v : String),
      scanString ('\\' :: '"' :: rest) line col v = scanString rest line (col + 2) (v.push '"')) ∧
    (∀ (e : Char) (rest : List Char) (line col : Nat) (v : String),
      e ≠ 'n' → e ≠ 't' → e ≠ 'r' → e ≠ '\\' → e ≠ '"' →
      scanString ('\\' :: e :: rest) line col v =
        .error (.lexError ("Invalid escape sequence: \\" ++ String.singleton e))) ∧
    (∀ (cs : List Char) (line col : Nat) (v : String),
      (∀ ch ∈ cs, ch ≠ '"' ∧ ch ≠ '\\') →
      scanString cs line col v = .error (.lexError "Unterminated string")) ∧
    (∀ (st : Stages) (cst : CompilerState) (out : String),
      compileSource st cst "\"abc" "m" "f" out =
        (.error (.lexError "Unterminated string"), cst, [])) := by
  refine ⟨fun rest line col v => rfl, fun rest line col v => rfl, fun rest line col v => rfl,
    fun rest line col v => rfl, fun rest line col v => rfl,
    fun e rest line col v hn ht hr hb hq => by simp [scanString, hn, ht, hr, hb, hq],
    ?_, fun st cst out => rfl⟩
  intro cs
  induction cs with
  | nil => intro line col v _; rfl
  | cons c rest ih =>
    intro line col v hall
    obtain ⟨hc1, hc2⟩ := hall c (List.mem_cons_self c rest)
    have heq : scanString (c :: rest) line col v =
        if c = '\n' then scanString rest (line + 1) 2 (v.push c)
        else scanString rest line (col + 1) (v.push c) := by
      rw [scanString.eq_def]
      repeat' split
      all_goals simp_all
    rw [heq]
    have hrest : ∀ ch ∈ rest, ch ≠ '"' ∧ ch ≠ '\\' :=
      fun ch hm => hall ch (List.mem_cons_of_mem c hm)
    split
    · exact ih (line + 1) 2 (v.push c) hrest
    · exact ih line (col + 1) (v.push c) hrest

/-- Counterexample to C7 as stated: the source consisting of a quote and a
single backslash reaches end of input before any closing quote, yet the lex
error is not "Unterminated string" — the escape match consumes past the end
(the modelled safe `advance` yields NUL) and reports an invalid escape. -/
theorem trailing_backslash_not_unterminated_error :
    tokenize "\"\\" "f" =
      .error (.lexError ("Invalid escape sequence: \\" ++ String.singleton '\x00')) ∧
    tokenize "\"\\" "f" ≠ .error (.lexError "Unterminated string") := by
  refine ⟨rfl, fun h => ?_⟩
  have h2 : CompileError.lexError ("Invalid escape sequence: \\" ++ String.singleton '\x00') =
      CompileError.lexError "Unterminated string" :=
    Except.error.inj ((Eq.symm (rfl :
      tokenize "\"\\" "f" =
        .error (.lexError ("Invalid escape sequence: \\" ++ String.singleton '\x00')))).trans h)
  exact absurd h2 (by decide)

/-! Lemmas about the generator: the rendered field-value association is
consulted only through named lookup, so the generated text depends on a
struct initializer's field map only through `lookupField`. -/

theorem lookupText_genFieldVals (structs : List Struct) (m : List (String × Expression))
    (k : String) :
    lookupText (genFieldVals structs m) k = (lookupField m k).map (genExpr structs) := by
  induction m with
  | nil => rfl
  | cons p rest ih =>
    obtain ⟨k', v⟩ := p
    simp only [genFieldVals, lookupText, lookupField]
    by_cases h : k' = k
    · simp [h]
    · simp [h, ih]

theorem lookupText_genFieldVals_sigma (σ : List (String × Expression) → List (String × Expression))
    (hσ : PreservesLookup σ) (structs : List Struct) (L M : List (String × Expression))
    (h : genFieldVals structs L = genFieldVals structs M) (k : String) :
    lookupText (genFieldVals structs (σ L)) k = lookupText (genFieldVals structs M) k := by
  rw [lookupText_genFieldVals, hσ, ← lookupText_genFieldVals, h]

mutual

theorem reorder_genExpr (σ : List (String × Expression) → List (String × Expression))
    (hσ : PreservesLookup σ) (structs : List Struct) (e : Expression) :
    genExpr structs (reorderExpr σ e) = genExpr structs e := by
  cases e with
  | literal l => rfl
  | identifier i => rfl
  | binary b =>
    obtain ⟨l, op, r, sp⟩ := b
    simp only [reorderExpr, genExpr, reorder_genExpr σ hσ structs l,
      reorder_genExpr σ hσ structs r]
  | unary u =>
    obtain ⟨op, e1, sp⟩ := u
    simp only [reorderExpr, genExpr, reorder_genExpr σ hσ structs e1]
  | call c =>
    obtain ⟨f, args, sp⟩ := c
    simp only [reorderExpr, genExpr, reorder_genExpr σ hσ structs f,
      reorder_genExprList σ hσ structs args]
  | memberAccess m =>
    obtain ⟨o, mem, sp⟩ := m
    simp only [reorderExpr, genExpr, reorder_genExpr σ hσ structs o]
  | list l =>
    obtain ⟨es, sp⟩ := l
    simp only [reorderExpr, genExpr, reorder_genExprList σ hσ structs es]
  | structInit s =>
    obtain ⟨n, fields, sp⟩ := s
    have hvals := reorder_genFieldVals σ hσ structs fields
    simp only [reorderExpr, genExpr]
    cases hfind : findStruct structs n with
    | none => simp only [hfind]
    | some decl =>
      simp only [hfind]
      simp only [lookupText_genFieldVals_sigma σ hσ structs _ _ hvals]

theorem reorder_genExprList (σ : List (String × Expression) → List (String × Expression))
    (hσ : PreservesLookup σ) (structs : List Struct) (es : List Expression) :
    genExprList structs (reorderExprList σ es) = genExprList structs es := by
  cases es with
  | nil => rfl
  | cons e es =>
    simp only [reorderExprList, genExprList, reorder_genExpr σ hσ structs e,
      reorder_genExprList σ hσ structs es]

theorem reorder_genFieldVals (σ : List (String × Expression) → List (String × Expression))
    (hσ : PreservesLookup σ) (structs : List Struct) (m : List (String × Expression)) :
    genFieldVals structs (reorderFieldList σ m) = genFieldVals structs m := by
  cases m with
  | nil => rfl
  | cons p rest =>
    obtain ⟨k, v⟩ := p
    simp only [reorderFieldList, genFieldVals, reorder_genExpr σ hσ structs v,
      reorder_genFieldVals σ hσ structs rest]

end

mutual

theorem reorder_genStmt (σ : List (String × Expression) → List (String × Expression))
    (hσ : PreservesLookup σ) (structs : List Struct) (s : Statement) :
    genStmt structs (reorderStmt σ s) = genStmt structs s := by
  cases s with
  | expression e => simp only [reorderStmt, genStmt, reorder_genExpr σ hσ structs e]
  | varDecl v =>
    simp only [reorderStmt, genStmt, reorder_genExpr σ hσ structs v.initializer]
  | assignment a =>
    obtain ⟨t, v, sp⟩ := a
    simp only [reorderStmt, genStmt, reorder_genExpr σ hσ structs t,
      reorder_genExpr σ hσ structs v]
  | ifStmt i =>
    obtain ⟨cnd, tb, eifs, eb, sp⟩ := i
    cases eb with
    | none =>
      simp only [reorderStmt, genStmt, reorder_genExpr σ hσ structs cnd,
        reorder_genBlock σ hσ structs tb, reorder_genElseIfs σ hσ structs eifs]
    | some b =>
      simp only [reorderStmt, genStmt, reorder_genExpr σ hσ structs cnd,
        reorder_genBlock σ hσ structs tb, reorder_genElseIfs σ hσ structs eifs,
        reorder_genBlock σ hσ structs b]
  | forLoop f =>
    obtain ⟨v, it, b, sp⟩ := f
    simp only [reorderStmt, genStmt, reorder_genExpr σ hσ structs it,
      reorder_genBlock σ hσ structs b]
  | tryStmt t =>
    obtain ⟨tb, cs, sp⟩ := t
    simp only [reorderStmt, genStmt, reorder_genBlock σ hσ structs tb,
      reorder_genCatches σ hσ structs cs]
  | ret r =>
    obtain ⟨val, sp⟩ := r
    cases val with
    | none => rfl
    | some e =>
      simp only [reorderStmt, genStmt, Option.map, reorder_genExpr σ hσ structs e]

theorem reorder_genStmtList (σ : List (String × Expression) → List (String × Expression))
    (hσ : PreservesLookup σ) (structs : List Struct) (ss : List Statement) :
    genStmtList structs (reorderStmtList σ ss) = genStmtList structs ss := by
  cases ss with
  | nil => rfl
  | cons s ss =>
    simp only [reorderStmtList, genStmtList, reorder_genStmt σ hσ structs s,
      reorder_genStmtList σ hσ structs ss]

theorem reorder_genElseIfs (σ : List (String × Expression) → List (String × Expression))
    (hσ : PreservesLookup σ) (structs : List Struct) (eifs : List (Expression × Block)) :
    genElseIfs structs (reorderElseIfs σ eifs) = genElseIfs structs eifs := by
  cases eifs with
  | nil => rfl
  | cons p rest =>
    obtain ⟨c, b⟩ := p
    simp only [reorderElseIfs, genElseIfs, reorder_genExpr σ hσ structs c,
      reorder_genBlock σ hσ structs b, reorder_genElseIfs σ hσ structs rest]

theorem reorder_genCatches (σ : List (String × Expression) → List (String × Expression))
    (hσ : PreservesLookup σ) (structs : List Struct) (cs : List CatchClause) :
    genCatches structs (reorderCatches σ cs) = genCatches structs cs := by
  cases cs with
  | nil => rfl
  | cons cc rest =>
    obtain ⟨ty, hb, sp⟩ := cc
    simp only [reorderCatches, genCatches, reorder_genBlock σ hσ structs hb,
      reorder_genCatches σ hσ structs rest]

theorem reorder_genBlock (σ : List (String × Expression) → List (String × Expression))
    (hσ : PreservesLookup σ) (structs : List Struct) (b : Block) :
    genBlock structs (reorderBlock σ b) = genBlock structs b := by
  cases b with
  | mk stmts sp =>
    simp only [reorderBlock, genBlock, reorder_genStmtList σ hσ structs stmts]

end

theorem reorder_genItem (σ : List (String × Expression) → List (String × Expression))
    (hσ : PreservesLookup σ) (structs : List Struct) (it : Item) :
    genItem structs (reorderItem σ it) = genItem structs it := by
  cases it
  case function f =>
    have hp : (f.parameters.map (reorderParameter σ)).map genParameter =
        f.parameters.map genParameter := by
      rw [List.map_map]
      rfl
    simp only [reorderItem, genItem, hp, reorder_genBlock σ hσ structs f.body]
  case struct s => rfl
  case constant c =>
    simp only [reorderItem, genItem, reorder_genExpr σ hσ structs c.value]
  case _ v =>
    simp only [reorderItem, genItem, reorder_genExpr σ hσ structs v.initializer]

theorem structsOf_reorder (σ : List (String × Expression) → List (String × Expression))
    (p : Program) : structsOf (reorderProgram σ p) = structsOf p := by
  obtain ⟨items, imports⟩ := p
  simp only [structsOf, reorderProgram]
  induction items with
  | nil => rfl
  | cons it rest ih =>
    simp only [List.map_cons, List.filterMap_cons]
    cases it <;> simp_all [reorderItem]

/-- C1: the generator is a deterministic function of the validated AST. The
only unordered container in an AST is a struct initializer's field map;
two runs of generation over the same AST observe the same maps, possibly
listed in different iteration orders. For every lookup-preserving re-listing
`σ` (any change of iteration order of every field map), the generated text
is byte-identical, so generation from the same validated AST twice yields
byte-identical output. -/
theorem generate_deterministic_of_lookup_preserving
    (σ : List (String × Expression) → List (String × Expression))
    (hσ : PreservesLookup σ) (p : Program) (module_name : String) :
    generate (reorderProgram σ p) module_name = generate p module_name := by
  obtain ⟨items, imports⟩ := p
  have hs := structsOf_reorder σ ⟨items, imports⟩
  simp only [generate, reorderProgram] at hs ⊢
  rw [hs, List.map_map]
  have hmap : ∀ it ∈ items, (genItem (structsOf ⟨items, imports⟩) ∘ reorderItem σ) it =
      genItem (structsOf ⟨items, imports⟩) it :=
    fun it _ => reorder_genItem σ hσ (structsOf ⟨items, imports⟩) it
  rw [List.map_congr_left hmap]

theorem swapHead_preserves : PreservesLookup swapHead := by
  intro l k
  rcases l with _ | ⟨⟨ka, va⟩, _ | ⟨⟨kb, vb⟩, t⟩⟩
  · rfl
  · rfl
  · simp only [swapHead]
    by_cases hab : ka = kb
    · simp [hab]
    · simp only [if_neg hab]
      by_cases hk1 : ka = k <;> by_cases hk2 : kb = k
      · exact absurd (hk1.trans hk2.symm) hab
      · simp [lookupField, hk1, hk2]
      · simp [lookupField, hk1, hk2]
      · simp [lookupField, hk1, hk2]

/-- Witness for C1: a lookup-preserving swap of the sample program's
initializer fields leaves the generated text unchanged. -/
theorem generate_deterministic_witness :
    generate (reorderProgram swapHead sampleProgram) "sample" =
      generate sampleProgram "sample" :=
  generate_deterministic_of_lookup_preserving swapHead swapHead_preserves sampleProgram "sample"

/-- C2: the field values of a generated struct initializer appear in the
struct's declared field order, each looked up by name from the
initializer's name-to-expression mapping, and the output is unchanged under
any replacement of the mapping by a lookup-equal one (another iteration
order of the same map). -/
theorem struct_init_declared_field_order (structs : List Struct) (decl : Struct)
    (si₁ si₂ : StructInitializer)
    (hfind : findStruct structs si₁.struct_name = some decl)
    (hname : si₂.struct_name = si₁.struct_name)
    (hlook : ∀ k, lookupField si₂.fields k = lookupField si₁.fields k) :
    genExpr structs (.structInit si₁) =
      si₁.struct_name ++ " \x7b " ++ String.intercalate ", "
        (decl.fields.map (fun f => f.name ++ ": " ++
          ((lookupField si₁.fields f.name).map (genExpr structs)).getD "Default::default()"))
        ++ " \x7d" ∧
    genExpr structs (.structInit si₂) = genExpr structs (.structInit si₁) := by
  obtain ⟨n1, fs1, sp1⟩ := si₁
  obtain ⟨n2, fs2, sp2⟩ := si₂
  simp only [StructInitializer.struct_name, StructInitializer.fields] at hfind hname hlook
  subst hname
  constructor
  · simp only [genExpr, hfind, lookupText_genFieldVals, StructInitializer.struct_name,
      StructInitializer.fields]
  · simp only [genExpr, hfind, lookupText_genFieldVals, hlook]

/-- Witness for C2: the `Point` initializer listing `y` first generates the
same text as the one listing `x` first, with values in declared order. -/
theorem struct_init_declared_field_order_witness :
    genExpr [pointStruct] (.structInit initXY) =
      initXY.struct_name ++ " \x7b " ++ String.intercalate ", "
        (pointStruct.fields.map (fun f => f.name ++ ": " ++
          ((lookupField initXY.fields f.name).map (genExpr [pointStruct])).getD
            "Default::default()"))
        ++ " \x7d" ∧
    genExpr [pointStruct] (.structInit initYX) = genExpr [pointStruct] (.structInit initXY) :=
  struct_init_declared_field_order [pointStruct] pointStruct initXY initYX rfl rfl
    (fun k => by
      simp only [initXY, initYX, StructInitializer.fields, lookupField]
      by_cases hx : "x" = k <;> by_cases hy : "y" = k
      · exact absurd (hx.trans hy.symm) (by decide)
      · simp [hx, hy]
      · simp [hx, hy]
      · simp [hx, hy])

/-! Lemmas about the driver (`compile_source` and `compile_directory`):
characterizations of each outcome of one module's pipeline. -/

theorem compileSource_lex_error (st : Stages) (cst : CompilerState)
    (source n f o : String) (e : CompileError) (h : tokenize source f = .error e) :
    compileSource st cst source n f o = (.error e, cst, []) := by
  simp [compileSource, h]

theorem compileSource_parse_error (st : Stages) (cst : CompilerState)
    (source n f o : String) (toks : List Token) (e : CompileError)
    (h1 : tokenize source f = .ok toks) (h2 : st.parse toks = .error e) :
    compileSource st cst source n f o = (.error e, cst, []) := by
  simp [compileSource, h1, h2]

theorem compileSource_analyze_error (st : Stages) (cst : CompilerState)
    (source n f o : String) (toks : List Token) (ast : Program) (e : CompileError)
    (h1 : tokenize source f = .ok toks) (h2 : st.parse toks = .ok ast)
    (h3 : st.analyze ast = .error e) :
    compileSource st cst source n f o = (.error e, cst, []) := by
  simp [compileSource, h1, h2, h3]

theorem compileSource_after_analysis (st : Stages) (cst : CompilerState)
    (source n f o : String) (toks : List Token) (ast : Program)
    (h1 : tokenize source f = .ok toks) (h2 : st.parse toks = .ok ast)
    (h3 : st.analyze ast = .ok ()) :
    (compileSource st cst source n f o).2.1 = ⟨insertModule cst.modules n ast⟩ := by
  simp only [compileSource, h1, h2, h3]
  split
  · split
    · rfl
    · rfl
  · rfl

theorem compileSource_success (st : Stages) (cst : CompilerState)
    (source n f o : String) (toks : List Token) (ast : Program)
    (h1 : tokenize source f = .ok toks) (h2 : st.parse toks = .ok ast)
    (h3 : st.analyze ast = .ok ()) (h4 : st.createDirOk o = true)
    (h5 : st.writeOk (o ++ "/" ++ n ++ ".rs") = true) :
    compileSource st cst source n f o =
      (.ok (o ++ "/" ++ n ++ ".rs"), ⟨insertModule cst.modules n ast⟩,
       [.wroteFile (o ++ "/" ++ n ++ ".rs") (generate ast n)]) := by
  simp [compileSource, h1, h2, h3, h4, h5]

theorem compileSource_ok_inversion (st : Stages) (cst : CompilerState)
    (source n f o : String) (v : String)
    (h : (compileSource st cst source n f o).1 = .ok v) :
    ∃ toks ast, tokenize source f = .ok toks ∧ st.parse toks = .ok ast ∧
      st.analyze ast = .ok () ∧ st.createDirOk o = true ∧
      st.writeOk (o ++ "/" ++ n ++ ".rs") = true ∧ v = o ++ "/" ++ n ++ ".rs" := by
  rcases h1 : tokenize source f with e | toks
  · simp [compileSource, h1] at h
  · rcases h2 : st.parse toks with e | ast
    · simp [compileSource, h1, h2] at h
    · rcases h3 : st.analyze ast with e | u
      · simp [compileSource, h1, h2, h3] at h
      · cases u
        cases h4 : st.createDirOk o
        · simp [compileSource, h1, h2, h3, h4] at h
        · cases h5 : st.writeOk (o ++ "/" ++ n ++ ".rs")
          · simp [compileSource, h1, h2, h3, h4, h5] at h
          · refine ⟨toks, ast, rfl, h2, h3, rfl, rfl, ?_⟩
            simp [compileSource, h1, h2, h3, h4, h5] at h
            exact h.symm

theorem compileSource_state_indep (st : Stages) (cst : CompilerState)
    (source n f o : String) :
    (compileSource st cst source n f o).1 = (compileSource st ⟨[]⟩ source n f o).1 ∧
    (compileSource st cst source n f o).2.2 = (compileSource st ⟨[]⟩ source n f o).2.2 := by
  rcases h1 : tokenize source f with e | toks
  · simp [compileSource, h1]
  · rcases h2 : st.parse toks with e | ast
    · simp [compileSource, h1, h2]
    · rcases h3 : st.analyze ast with e | u
      · simp [compileSource, h1, h2, h3]
      · cases u
        cases h4 : st.createDirOk o
        · simp [compileSource, h1, h2, h3, h4]
        · cases h5 : st.writeOk (o ++ "/" ++ n ++ ".rs")
          · simp [compileSource, h1, h2, h3, h4, h5]
          · simp [compileSource, h1, h2, h3, h4, h5]

/-- C4 (amended): the module registry is unchanged when the module fails in
lexing, parsing, or semantic analysis; once analysis succeeds the entry is
inserted (mod.rs line 93) — before code generation and before the output
file is written — so a later failure of the code-generation or write step
leaves the entry in the registry. -/
theorem compile_source_registry_update (st : Stages) (cst : CompilerState)
    (source module_name file_path output_dir : String) :
    ((∃ e, tokenize source file_path = .error e) →
      (compileSource st cst source module_name file_path output_dir).2.1 = cst) ∧
    (∀ toks, tokenize source file_path = .ok toks → (∃ e, st.parse toks = .error e) →
      (compileSource st cst source module_name file_path output_dir).2.1 = cst) ∧
    (∀ toks ast, tokenize source file_path = .ok toks → st.parse toks = .ok ast →
      (∃ e, st.analyze ast = .error e) →
      (compileSource st cst source module_name file_path output_dir).2.1 = cst) ∧
    (∀ toks ast, tokenize source file_path = .ok toks → st.parse toks = .ok ast →
      st.analyze ast = .ok () →
      (compileSource st cst source module_name file_path output_dir).2.1 =
        ⟨insertModule cst.modules module_name ast⟩) := by
  refine ⟨?_, ?_, ?_, ?_⟩
  · rintro ⟨e, h⟩
    rw [compileSource_lex_error st cst source module_name file_path output_dir e h]
  · rintro toks h1 ⟨e, h2⟩
    rw [compileSource_parse_error st cst source module_name file_path output_dir toks e h1 h2]
  · rintro toks ast h1 h2 ⟨e, h3⟩
    rw [compileSource_analyze_error st cst source module_name file_path output_dir toks ast e
      h1 h2 h3]
  · intro toks ast h1 h2 h3
    exact compileSource_after_analysis st cst source module_name file_path output_dir toks ast
      h1 h2 h3

/-- Counterexample to C4 as stated: a module whose pipeline fails at the
write step (an I/O failure of `fs::write`) nevertheless leaves its entry in
the registry, because `compile_source` inserts at mod.rs line 93, before
generation and writing. -/
theorem compile_source_registry_counterexample :
    (compileSource stagesWriteFails ⟨[]⟩ "" "m" "f.rsc" "out").1 =
      .error (.ioError "Failed to write Rust file") ∧
    (compileSource stagesWriteFails ⟨[]⟩ "" "m" "f.rsc" "out").2.1.modules.map Prod.fst =
      ["m"] :=
  ⟨rfl, rfl⟩

theorem compileDirLoop_error_append (st : Stages) (output_dir : String) :
    ∀ (xs ys : List DirEntry) (cst : CompilerState) (acc : List String) (ev : List FsEvent)
      (err : CompileError) (cstF : CompilerState) (evF : List FsEvent),
    compileDirLoop st output_dir xs cst acc ev = (.error err, cstF, evF) →
    compileDirLoop st output_dir (xs ++ ys) cst acc ev = (.error err, cstF, evF) := by
  intro xs
  induction xs with
  | nil =>
    intro ys cst acc ev err cstF evF h
    simp [compileDirLoop] at h
  | cons e rest ih =>
    intro ys cst acc ev err cstF evF h
    simp only [List.cons_append]
    by_cases hrsc : pathExtension e.path = some "rsc"
    · rcases hc : e.contents with _ | src
      · simp only [compileDirLoop, if_pos hrsc, hc] at h ⊢
        exact h
      · rcases hq : compileSource st cst src ((pathFileStem e.path).getD "unnamed") e.path
            output_dir with ⟨res, cst', ev2⟩
        cases res with
        | error err2 =>
          simp only [compileDirLoop, if_pos hrsc, hc, hq] at h ⊢
          exact h
        | ok rust_file =>
          simp only [compileDirLoop, if_pos hrsc, hc, hq] at h ⊢
          exact ih ys cst' (acc ++ [rust_file]) ((ev ++ [.readFile e.path]) ++ ev2) err cstF
            evF h
    · simp only [compileDirLoop, if_neg hrsc] at h ⊢
      exact ih ys cst acc ev err cstF evF h

/-- C5: modules are processed strictly sequentially by `compile_directory`,
and a failure in one module's pipeline aborts the whole invocation: the run
over the failing prefix alone returns the very same result, registry state
and filesystem events as the run over the full entry list — no entry after
the failing one is read, compiled, or written. -/
theorem compile_directory_fail_fast (st : Stages) (cst : CompilerState)
    (output_dir : String) (xs ys : List DirEntry) (err : CompileError)
    (cstF : CompilerState) (evF : List FsEvent)
    (h : compileDirectory st cst xs output_dir = (.error err, cstF, evF)) :
    compileDirectory st cst (xs ++ ys) output_dir = (.error err, cstF, evF) :=
  compileDirLoop_error_append st output_dir xs ys cst [] [] err cstF evF h

/-- Witness for C5: a directory whose first module fails to read aborts the
run; the second entry is never read, compiled or written. -/
theorem compile_directory_fail_fast_witness :
    compileDirectory stagesAllOk ⟨[]⟩ ([⟨"a.rsc", none⟩] ++ [⟨"b.rsc", some ""⟩]) "out" =
      (.error (.ioError "Failed to read file a.rsc"), ⟨[]⟩, [.readFile "a.rsc"]) :=
  compile_directory_fail_fast stagesAllOk ⟨[]⟩ "out" [⟨"a.rsc", none⟩] [⟨"b.rsc", some ""⟩]
    (.ioError "Failed to read file a.rsc") ⟨[]⟩ [.readFile "a.rsc"] rfl

/-- C6 (amended): the process exits 0 on success and 1 on any compile or
build failure; on a compile failure all accumulated diagnostics are emitted
to the error stream before exiting (main.rs line 92); on a native-build
failure (main.rs lines 81-84) the process exits 1 after printing the build
error only — `emit_all()` is not called there, so accumulated diagnostics
are not emitted. -/
theorem main_exit_codes_and_diagnostics (verbose : Bool) (ip od : String)
    (files : List String) (bin : String) (e : CompileError) (sc : Bool)
    (nr : Except CompileError String) :
    (mainRun verbose ip od (.ok files) false nr).1 = 0 ∧
    (mainRun verbose ip od (.ok files) true (.ok bin)).1 = 0 ∧
    ((mainRun verbose ip od (.error e) sc nr).1 = 1 ∧
      ∃ pre, (mainRun verbose ip od (.error e) sc nr).2 =
        pre ++ [.eprinted ("Error: " ++ errorMessage e), .emittedDiagnostics]) ∧
    ((mainRun verbose ip od (.ok files) true (.error e)).1 = 1 ∧
      MainEvent.emittedDiagnostics ∉ (mainRun verbose ip od (.ok files) true (.error e)).2) := by
  refine ⟨by simp [mainRun], by simp [mainRun], ⟨by simp [mainRun], ?_⟩, by simp [mainRun], ?_⟩
  · cases verbose
    · exact ⟨[], by simp [mainRun]⟩
    · exact ⟨[.printed "Rustic Compiler v0.1.0", .printed ("Input: " ++ ip),
        .printed ("Output: " ++ od)], by simp [mainRun]⟩
  · cases verbose <;> simp [mainRun]

/-- Counterexample to C6 as stated: with a successful compile and a failing
native build, the process exits 1 with only the build error on the error
stream — `emit_all()` never runs, so accumulated diagnostics are not
emitted before exiting. -/
theorem main_native_failure_skips_diagnostics :
    mainRun false "i" "o" (.ok ["out/m.rs"]) true (.error (.compilationError "boom")) =
      (1, [.eprinted "Compilation failed: boom"]) ∧
    MainEvent.emittedDiagnostics ∉
      (mainRun false "i" "o" (.ok ["out/m.rs"]) true (.error (.compilationError "boom"))).2 :=
  ⟨rfl, by decide⟩

theorem insertModule_keys (ms : List (String × Program)) (k : String) (v : Program)
    (name : String) :
    name ∈ (insertModule ms k v).map Prod.fst ↔ name ∈ ms.map Prod.fst ∨ name = k := by
  simp only [insertModule]
  split
  · next hany =>
    have hkeys : (ms.map (fun p => if p.1 = k then (k, v) else p)).map Prod.fst =
        ms.map Prod.fst := by
      rw [List.map_map]
      apply List.map_congr_left
      intro p _
      by_cases hp : p.1 = k
      · simp [hp]
      · simp [hp]
    rw [hkeys]
    constructor
    · exact .inl
    · rintro (h | rfl)
      · exact h
      · rcases List.any_eq_true.mp hany with ⟨p, hp, hpk⟩
        exact List.mem_map.mpr ⟨p, hp, of_decide_eq_true hpk⟩
  · simp [List.map_append, List.mem_append]

theorem compileDirLoop_all_ok (st : Stages) (output_dir : String) :
    ∀ (entries : List DirEntry) (cst : CompilerState) (acc : List String) (ev : List FsEvent),
    (∀ e ∈ entries, isRsc e = true → entryCompiles st output_dir e = true) →
    (compileDirLoop st output_dir entries cst acc ev).1 =
        .ok (acc ++ (entries.filter isRsc).map (outPath output_dir)) ∧
    (compileDirLoop st output_dir entries cst acc ev).2.2 =
        ev ++ (entries.filter isRsc).flatMap (entryEvents st output_dir) ∧
    ∀ name, name ∈ (compileDirLoop st output_dir entries cst acc ev).2.1.modules.map Prod.fst ↔
      (name ∈ cst.modules.map Prod.fst ∨
        name ∈ (entries.filter isRsc).map moduleStem) := by
  intro entries
  induction entries with
  | nil =>
    intro cst acc ev _
    exact ⟨by simp [compileDirLoop], by simp [compileDirLoop],
      fun name => by simp [compileDirLoop]⟩
  | cons e rest ih =>
    intro cst acc ev h
    by_cases hrsc : pathExtension e.path = some "rsc"
    · have hrscB : isRsc e = true := by simp [isRsc, hrsc]
      have hec := h e (List.mem_cons_self _ _) hrscB
      rcases hc : e.contents with _ | src
      · exfalso
        simp [entryCompiles, hc] at hec
      · have hok0 : ∃ v, (compileSource st ⟨[]⟩ src (moduleStem e) e.path output_dir).1 =
            .ok v := by
          rcases hq : (compileSource st ⟨[]⟩ src (moduleStem e) e.path output_dir).1 with
            er | v
          · exfalso
            simp [entryCompiles, hc, hq] at hec
          · exact ⟨v, rfl⟩
        obtain ⟨v0, hok0⟩ := hok0
        obtain ⟨toks, ast, h1, h2, h3, h4, h5, rfl⟩ :=
          compileSource_ok_inversion st ⟨[]⟩ src (moduleStem e) e.path output_dir v0 hok0
        have hrun := compileSource_success st cst src (moduleStem e) e.path output_dir toks
          ast h1 h2 h3 h4 h5
        have hrun0 := compileSource_success st ⟨[]⟩ src (moduleStem e) e.path output_dir toks
          ast h1 h2 h3 h4 h5
        have hstep : compileDirLoop st output_dir (e :: rest) cst acc ev =
            compileDirLoop st output_dir rest ⟨insertModule cst.modules (moduleStem e) ast⟩
              (acc ++ [outPath output_dir e])
              ((ev ++ [.readFile e.path]) ++
                [.wroteFile (outPath output_dir e) (generate ast (moduleStem e))]) := by
          simp only [compileDirLoop, if_pos hrsc, hc]
          rw [show (pathFileStem e.path).getD "unnamed" = moduleStem e from rfl]
          rw [hrun]
          rfl
        have hev1 : entryEvents st output_dir e =
            [.readFile e.path, .wroteFile (outPath output_dir e)
              (generate ast (moduleStem e))] := by
          simp [entryEvents, hc, hrun0, outPath]
        rw [hstep]
        obtain ⟨hr1, hr2, hr3⟩ := ih ⟨insertModule cst.modules (moduleStem e) ast⟩
          (acc ++ [outPath output_dir e])
          ((ev ++ [.readFile e.path]) ++
            [.wroteFile (outPath output_dir e) (generate ast (moduleStem e))])
          (fun e' he' => h e' (List.mem_cons_of_mem _ he'))
        refine ⟨?_, ?_, ?_⟩
        · rw [hr1]
          simp [List.filter_cons, hrscB]
        · rw [hr2]
          simp [List.filter_cons, hrscB, hev1]
        · intro name
          rw [hr3 name]
          have hins := insertModule_keys cst.modules (moduleStem e) ast name
          simp only [CompilerState.modules] at hins ⊢
          rw [hins]
          simp only [List.filter_cons, hrscB, if_pos, List.map_cons, List.mem_cons]
          tauto
    · have hrscB : isRsc e = false := by simp [isRsc, hrsc]
      have hstep : compileDirLoop st output_dir (e :: rest) cst acc ev =
          compileDirLoop st output_dir rest cst acc ev := by
        simp only [compileDirLoop, if_neg hrsc]
      rw [hstep]
      have hrest := ih cst acc ev (fun e' he' => h e' (List.mem_cons_of_mem _ he'))
      simpa [List.filter_cons, hrscB] using hrest

/-- C9: in directory mode the compiler processes exactly the entries whose
path carries the reserved `rsc` extension; each such entry is read, compiled
as one module named after its file stem, and — when its pipeline succeeds —
exactly one output file `<module-stem>.rs` is written under the output
directory; non-`rsc` entries contribute nothing, and the registry's module
names afterwards are exactly the prior names plus the `rsc` stems. -/
theorem compile_directory_discovers_and_writes (st : Stages) (cst : CompilerState)
    (entries : List DirEntry) (output_dir : String)
    (h : ∀ e ∈ entries, isRsc e = true → entryCompiles st output_dir e = true) :
    (compileDirectory st cst entries output_dir).1 =
        .ok ((entries.filter isRsc).map (outPath output_dir)) ∧
    (compileDirectory st cst entries output_dir).2.2 =
        (entries.filter isRsc).flatMap (entryEvents st output_dir) ∧
    ∀ name, name ∈ (compileDirectory st cst entries output_dir).2.1.modules.map Prod.fst ↔
      (name ∈ cst.modules.map Prod.fst ∨
        name ∈ (entries.filter isRsc).map moduleStem) := by
  have hmain := compileDirLoop_all_ok st output_dir entries cst [] [] h
  simpa [compileDirectory] using hmain

/-- Witness for C9: a directory walk containing one `rsc` module and one
unrelated file compiles exactly the module, reads and writes exactly its
files, and registers exactly its stem. -/
theorem compile_directory_discovers_and_writes_witness :
    (compileDirectory stagesAllOk ⟨[]⟩
        [⟨"src/a.rsc", some ""⟩, ⟨"src/readme.md", some "x"⟩] "out").1 =
        .ok (([⟨"src/a.rsc", some ""⟩,
               (⟨"src/readme.md", some "x"⟩ : DirEntry)].filter isRsc).map (outPath "out")) ∧
    (compileDirectory stagesAllOk ⟨[]⟩
        [⟨"src/a.rsc", some ""⟩, ⟨"src/readme.md", some "x"⟩] "out").2.2 =
        ([⟨"src/a.rsc", some ""⟩,
          (⟨"src/readme.md", some "x"⟩ : DirEntry)].filter isRsc).flatMap
          (entryEvents stagesAllOk "out") ∧
    ∀ name, name ∈ (compileDirectory stagesAllOk ⟨[]⟩
        [⟨"src/a.rsc", some ""⟩, ⟨"src/readme.md", some "x"⟩] "out").2.1.modules.map
          Prod.fst ↔
      (name ∈ (⟨[]⟩ : CompilerState).modules.map Prod.fst ∨
        name ∈ ([⟨"src/a.rsc", some ""⟩,
                 (⟨"src/readme.md", some "x"⟩ : DirEntry)].filter isRsc).map moduleStem) :=
  compile_directory_discovers_and_writes stagesAllOk ⟨[]⟩
    [⟨"src/a.rsc", some ""⟩, ⟨"src/readme.md", some "x"⟩] "out" (by decide)

end Rustic
